import Mathlib

/-!
Verification development for the wc-codex-server stream/session core.

The definitions below are a shallow embedding of:
* `src/codex-api/src/types/protocol.ts`   (frame schemas and codec)
* the http2 transport (`readFrames`, `writeFrame`)
* `ConfirmationQueue`, `AgentWrapper` (agent-wrapper.ts)
* the per-connection stream handler (`handleAgentStream`)

JSON strings are modelled at the level of JSON values (`Json` below):
`JSON.stringify` / `JSON.parse` are mutually inverse between JSON values
and their textual form, so the codec is embedded as functions on `Json`.
zod `parse` is embedded as a total function returning `Option`/`Except`.
-/

namespace WcCodex

/-- JSON values (objects keep field order, as JS objects do).  Frames carry
no numeric fields, so JSON numbers are modelled as integers. -/
inductive Json where
  | null : Json
  | bool (b : Bool) : Json
  | num (n : Int) : Json
  | str (s : String) : Json
  | arr (xs : List Json) : Json
  | obj (fields : List (String × Json)) : Json

/-- Field lookup in a JSON object field list (first match, as produced by
`JSON.parse`, whose objects have unique keys). -/
def lookupField : List (String × Json) → String → Option Json
  | [], _ => none
  | (k, v) :: rest, key => if k = key then some v else lookupField rest key

/-- JS member access `v[key]` on a decoded JSON value: only objects have
fields. -/
def Json.getField : Json → String → Option Json
  | .obj fs, key => lookupField fs key
  | _, _ => none

/-- `z.string()` applied to a present value. -/
def asStr : Json → Option String
  | .str s => some s
  | _ => none

/-- `z.array(z.string())` applied to a present value. -/
def asStrArr : Json → Option (List String)
  | .arr xs => xs.mapM asStr
  | _ => none

def isHexDigit (c : Char) : Bool :=
  c.isDigit || ('a' ≤ c && c ≤ 'f') || ('A' ≤ c && c ≤ 'F')

/-- Models `z.string().uuid()`: 8-4-4-4-12 hex digit groups. -/
def isUuid (s : String) : Bool :=
  match s.splitOn "-" with
  | [a, b, c, d, e] =>
    a.length = 8 && b.length = 4 && c.length = 4 && d.length = 4 &&
      e.length = 12 && (a ++ b ++ c ++ d ++ e).toList.all isHexDigit
  | _ => false

/-- Consume exactly `n` decimal digits. -/
def takeDigits : Nat → List Char → Option (List Char)
  | 0, rest => some rest
  | _ + 1, [] => none
  | n + 1, c :: rest => if c.isDigit then takeDigits n rest else none

/-- Models `z.string().datetime()`: `YYYY-MM-DDTHH:MM:SS(.d+)?Z`. -/
def isDatetime (s : String) : Bool :=
  let step := fun (sep : Option Char) (n : Nat) (x : Option (List Char)) =>
    match x, sep with
    | some (c :: rest), some sc => if c = sc then takeDigits n rest else none
    | some rest, none => takeDigits n rest
    | _, _ => none
  let core := step (some ':') 2 (step (some ':') 2 (step (some 'T') 2
    (step (some '-') 2 (step (some '-') 2 (step none 4 (some s.toList))))))
  match core with
  | some ['Z'] => true
  | some ('.' :: rest) =>
    match rest.span Char.isDigit with
    | (frac, ['Z']) => decide (frac ≠ [])
    | _ => false
  | _ => false

/-- `decision ∈ {allow, deny}` (`z.enum(["allow", "deny"])`). -/
inductive Decision where
  | allow
  | deny
deriving DecidableEq

def Decision.toStr : Decision → String
  | .allow => "allow"
  | .deny => "deny"

def parseDecision : Json → Option Decision
  | .str "allow" => some .allow
  | .str "deny" => some .deny
  | _ => none

/-- `approvalPolicy ∈ {suggest, auto-edit, full-auto}`. -/
inductive ApprovalPolicy where
  | suggest
  | autoEdit
  | fullAuto
deriving DecidableEq

def ApprovalPolicy.toStr : ApprovalPolicy → String
  | .suggest => "suggest"
  | .autoEdit => "auto-edit"
  | .fullAuto => "full-auto"

def parseApprovalPolicy : Json → Option ApprovalPolicy
  | .str "suggest" => some .suggest
  | .str "auto-edit" => some .autoEdit
  | .str "full-auto" => some .fullAuto
  | _ => none

/-- `configOverrides` object of `UserMessageFrameSchema`. -/
structure ConfigOverrides where
  model : Option String
  approvalPolicy : Option ApprovalPolicy
deriving DecidableEq

/-- `UserMessageFrameSchema`. -/
structure UserMessageFrame where
  id : Option String
  sessionId : Option String
  content : String
  imagePaths : Option (List String)
  configOverrides : Option ConfigOverrides
deriving DecidableEq

/-- `ApproveFrameSchema`. -/
structure ApproveFrame where
  id : Option String
  sessionId : String
  commandId : String
  decision : Decision
  explanation : Option String
deriving DecidableEq

/-- `CancelFrameSchema`. -/
structure CancelFrame where
  id : Option String
  sessionId : String
deriving DecidableEq

/-- `ClientFrame = UserMessageFrame | ApproveFrame | CancelFrame`. -/
inductive ClientFrame where
  | userMessage (f : UserMessageFrame)
  | approve (f : ApproveFrame)
  | cancel (f : CancelFrame)
deriving DecidableEq

/-- `ItemFrameSchema` (`responseItem : z.any()`, so it may be absent). -/
structure ItemFrame where
  id : Option String
  responseItem : Option Json

/-- `CommandPromptFrameSchema`. -/
structure CommandPromptFrame where
  id : Option String
  commandId : String
  command : List String
  applyPatch : Option Json
  explanation : Option String

/-- `StatusFrameSchema` (`details : z.record(z.unknown()).optional()`). -/
structure StatusFrame where
  id : Option String
  message : String
  details : Option (List (String × Json))

/-- `ErrorFrameSchema`. -/
structure ErrorFrame where
  id : Option String
  message : String
  code : Option String
  retryable : Option Bool
  details : Option (List (String × Json))

/-- `HeartbeatFrameSchema`. -/
structure HeartbeatFrame where
  id : Option String
  timestamp : String
deriving DecidableEq

/-- `TerminateFrameSchema`. -/
structure TerminateFrame where
  id : Option String
  reason : String
  details : Option (List (String × Json))

/-- `ServerFrame` union. -/
inductive ServerFrame where
  | item (f : ItemFrame)
  | commandPrompt (f : CommandPromptFrame)
  | status (f : StatusFrame)
  | error (f : ErrorFrame)
  | heartbeat (f : HeartbeatFrame)
  | terminate (f : TerminateFrame)

end WcCodex

namespace WcCodex

/-! ## Frame codec (`protocol.ts`)

Each `parseX` embeds `XFrameSchema.parse` on a JSON value: the `type`
literal is checked, required fields must be present with the right type,
optional fields must have the right type when present, unknown keys are
stripped (hence not represented in the result). -/

/-- The `z.literal(t)` check on the `type` discriminator field. -/
def typeIs (v : Json) (t : String) : Bool :=
  match v.getField "type" with
  | some (.str s) => s = t
  | _ => false

/-- An optional field: absent is fine, present must satisfy the member
parser (zod `.optional()`). -/
def optFieldP (v : Json) (key : String) (p : Json → Option α) :
    Option (Option α) :=
  match v.getField key with
  | none => some none
  | some j => (p j).map some

/-- `id: z.string().uuid().optional()` from `BaseFrameSchema`. -/
def parseIdField (v : Json) : Option (Option String) :=
  optFieldP v "id" (fun j => (asStr j).bind fun s =>
    if isUuid s then some s else none)

/-- `z.record(z.unknown())` applied to a present value. -/
def asRecord : Json → Option (List (String × Json))
  | .obj fs => some fs
  | _ => none

/-- The `configOverrides` object schema. -/
def parseConfigOverrides (j : Json) : Option ConfigOverrides :=
  match j with
  | .obj _ => do
    let model ← optFieldP j "model" asStr
    let approvalPolicy ← optFieldP j "approvalPolicy" parseApprovalPolicy
    some ⟨model, approvalPolicy⟩
  | _ => none

/-- `UserMessageFrameSchema.parse`. -/
def parseUserMessage (v : Json) : Option UserMessageFrame :=
  if typeIs v "user_message" then do
    let id ← parseIdField v
    let sessionId ← optFieldP v "sessionId" asStr
    let content ← (v.getField "content").bind asStr
    let imagePaths ← optFieldP v "imagePaths" asStrArr
    let configOverrides ← optFieldP v "configOverrides" parseConfigOverrides
    some ⟨id, sessionId, content, imagePaths, configOverrides⟩
  else none

/-- `ApproveFrameSchema.parse`. -/
def parseApprove (v : Json) : Option ApproveFrame :=
  if typeIs v "approve" then do
    let id ← parseIdField v
    let sessionId ← (v.getField "sessionId").bind asStr
    let commandId ← (v.getField "commandId").bind asStr
    let decision ← (v.getField "decision").bind parseDecision
    let explanation ← optFieldP v "explanation" asStr
    some ⟨id, sessionId, commandId, decision, explanation⟩
  else none

/-- `CancelFrameSchema.parse`. -/
def parseCancel (v : Json) : Option CancelFrame :=
  if typeIs v "cancel" then do
    let id ← parseIdField v
    let sessionId ← (v.getField "sessionId").bind asStr
    some ⟨id, sessionId⟩
  else none

/-- `decodeClientFrame`: `ClientFrameSchema.parse(JSON.parse(s))`.  The
union tries its members in declaration order; on failure the error carries
the offending payload. -/
def decodeClientFrame (v : Json) : Except Json ClientFrame :=
  match parseUserMessage v with
  | some f => .ok (.userMessage f)
  | none =>
    match parseApprove v with
    | some f => .ok (.approve f)
    | none =>
      match parseCancel v with
      | some f => .ok (.cancel f)
      | none => .error v

/-- `ItemFrameSchema.parse` (`responseItem : z.any()` accepts anything,
including an absent field). -/
def parseItem (v : Json) : Option ItemFrame :=
  if typeIs v "item" then do
    let id ← parseIdField v
    some ⟨id, v.getField "responseItem"⟩
  else none

/-- `CommandPromptFrameSchema.parse`. -/
def parseCommandPrompt (v : Json) : Option CommandPromptFrame :=
  if typeIs v "command_prompt" then do
    let id ← parseIdField v
    let commandId ← (v.getField "commandId").bind asStr
    let command ← (v.getField "command").bind asStrArr
    let explanation ← optFieldP v "explanation" asStr
    some ⟨id, commandId, command, v.getField "applyPatch", explanation⟩
  else none

/-- `StatusFrameSchema.parse`. -/
def parseStatus (v : Json) : Option StatusFrame :=
  if typeIs v "status" then do
    let id ← parseIdField v
    let message ← (v.getField "message").bind asStr
    let details ← optFieldP v "details" asRecord
    some ⟨id, message, details⟩
  else none

/-- `ErrorFrameSchema.parse`. -/
def parseError (v : Json) : Option ErrorFrame :=
  if typeIs v "error" then do
    let id ← parseIdField v
    let message ← (v.getField "message").bind asStr
    let code ← optFieldP v "code" asStr
    let retryable ← optFieldP v "retryable" (fun j =>
      match j with | .bool b => some b | _ => none)
    let details ← optFieldP v "details" asRecord
    some ⟨id, message, code, retryable, details⟩
  else none

/-- `HeartbeatFrameSchema.parse`. -/
def parseHeartbeat (v : Json) : Option HeartbeatFrame :=
  if typeIs v "heartbeat" then do
    let id ← parseIdField v
    let timestamp ← (v.getField "timestamp").bind fun j =>
      (asStr j).bind fun s => if isDatetime s then some s else none
    some ⟨id, timestamp⟩
  else none

/-- `TerminateFrameSchema.parse`. -/
def parseTerminate (v : Json) : Option TerminateFrame :=
  if typeIs v "terminate" then do
    let id ← parseIdField v
    let reason ← (v.getField "reason").bind asStr
    let details ← optFieldP v "details" asRecord
    some ⟨id, reason, details⟩
  else none

/-- `decodeServerFrame`: `ServerFrameSchema.parse(JSON.parse(s))`. -/
def decodeServerFrame (v : Json) : Except Json ServerFrame :=
  match parseItem v with
  | some f => .ok (.item f)
  | none =>
    match parseCommandPrompt v with
    | some f => .ok (.commandPrompt f)
    | none =>
      match parseStatus v with
      | some f => .ok (.status f)
      | none =>
        match parseError v with
        | some f => .ok (.error f)
        | none =>
          match parseHeartbeat v with
          | some f => .ok (.heartbeat f)
          | none =>
            match parseTerminate v with
            | some f => .ok (.terminate f)
            | none => .error v

/-- One optional entry of a serialized object (`JSON.stringify` skips
`undefined` fields). -/
def optEntry (key : String) : Option Json → List (String × Json)
  | none => []
  | some j => [(key, j)]

def ConfigOverrides.toJson (c : ConfigOverrides) : Json :=
  .obj (optEntry "model" (c.model.map .str) ++
    optEntry "approvalPolicy" (c.approvalPolicy.map fun p => .str p.toStr))

def UserMessageFrame.toJson (f : UserMessageFrame) : Json :=
  .obj (optEntry "id" (f.id.map .str) ++
    [("type", .str "user_message")] ++
    optEntry "sessionId" (f.sessionId.map .str) ++
    [("content", .str f.content)] ++
    optEntry "imagePaths" (f.imagePaths.map fun xs => .arr (xs.map .str)) ++
    optEntry "configOverrides" (f.configOverrides.map ConfigOverrides.toJson))

def ApproveFrame.toJson (f : ApproveFrame) : Json :=
  .obj (optEntry "id" (f.id.map .str) ++
    [("type", .str "approve"), ("sessionId", .str f.sessionId),
     ("commandId", .str f.commandId), ("decision", .str f.decision.toStr)] ++
    optEntry "explanation" (f.explanation.map .str))

def CancelFrame.toJson (f : CancelFrame) : Json :=
  .obj (optEntry "id" (f.id.map .str) ++
    [("type", .str "cancel"), ("sessionId", .str f.sessionId)])

def ClientFrame.toJson : ClientFrame → Json
  | .userMessage f => f.toJson
  | .approve f => f.toJson
  | .cancel f => f.toJson

def ItemFrame.toJson (f : ItemFrame) : Json :=
  .obj (optEntry "id" (f.id.map .str) ++
    [("type", .str "item")] ++
    optEntry "responseItem" f.responseItem)

def CommandPromptFrame.toJson (f : CommandPromptFrame) : Json :=
  .obj (optEntry "id" (f.id.map .str) ++
    [("type", .str "command_prompt"), ("commandId", .str f.commandId),
     ("command", .arr (f.command.map .str))] ++
    optEntry "applyPatch" f.applyPatch ++
    optEntry "explanation" (f.explanation.map .str))

def StatusFrame.toJson (f : StatusFrame) : Json :=
  .obj (optEntry "id" (f.id.map .str) ++
    [("type", .str "status"), ("message", .str f.message)] ++
    optEntry "details" (f.details.map .obj))

def ErrorFrame.toJson (f : ErrorFrame) : Json :=
  .obj (optEntry "id" (f.id.map .str) ++
    [("type", .str "error"), ("message", .str f.message)] ++
    optEntry "code" (f.code.map .str) ++
    optEntry "retryable" (f.retryable.map .bool) ++
    optEntry "details" (f.details.map .obj))

def HeartbeatFrame.toJson (f : HeartbeatFrame) : Json :=
  .obj (optEntry "id" (f.id.map .str) ++
    [("type", .str "heartbeat"), ("timestamp", .str f.timestamp)])

def TerminateFrame.toJson (f : TerminateFrame) : Json :=
  .obj (optEntry "id" (f.id.map .str) ++
    [("type", .str "terminate"), ("reason", .str f.reason)] ++
    optEntry "details" (f.details.map .obj))

def ServerFrame.toJson : ServerFrame → Json
  | .item f => f.toJson
  | .commandPrompt f => f.toJson
  | .status f => f.toJson
  | .error f => f.toJson
  | .heartbeat f => f.toJson
  | .terminate f => f.toJson

/-- `encodeClientFrame(obj) = JSON.stringify(ClientFrameSchema.parse(obj))`:
the in-memory frame (identified with its JSON value) is validated by the
schema; an invalid frame is a thrown error (fail fast). -/
def encodeClientFrame (f : ClientFrame) : Except Json Json :=
  match decodeClientFrame f.toJson with
  | .ok g => .ok g.toJson
  | .error e => .error e

/-- `encodeServerFrame(obj) = JSON.stringify(ServerFrameSchema.parse(obj))`. -/
def encodeServerFrame (f : ServerFrame) : Except Json Json :=
  match decodeServerFrame f.toJson with
  | .ok g => .ok g.toJson
  | .error e => .error e

/-- Validity of a client frame under the schema: everything beyond the
field structure (already enforced by the Lean types) is the `uuid` format
refinement on `id`. -/
def clientFrameWf : ClientFrame → Bool
  | .userMessage f => f.id.all isUuid
  | .approve f => f.id.all isUuid
  | .cancel f => f.id.all isUuid

/-- Validity of a server frame under the schema: `uuid` refinement on `id`
and `datetime` refinement on `heartbeat.timestamp`. -/
def serverFrameWf : ServerFrame → Bool
  | .item f => f.id.all isUuid
  | .commandPrompt f => f.id.all isUuid
  | .status f => f.id.all isUuid
  | .error f => f.id.all isUuid
  | .heartbeat f => f.id.all isUuid && isDatetime f.timestamp
  | .terminate f => f.id.all isUuid

end WcCodex

namespace WcCodex

/-! ## Round-trip lemmas for the codec -/

theorem mapM_asStr_map (xs : List String) :
    List.mapM asStr (xs.map Json.str) = some xs := by
  induction xs with
  | nil => rfl
  | cons x xs ih => rw [List.map_cons, List.mapM_cons, ih]; rfl

theorem asStrArr_map_str (xs : List String) :
    asStrArr (.arr (xs.map .str)) = some xs :=
  mapM_asStr_map xs

theorem parseDecision_toStr (d : Decision) :
    parseDecision (.str d.toStr) = some d := by
  cases d <;> rfl

theorem parseApprovalPolicy_toStr (p : ApprovalPolicy) :
    parseApprovalPolicy (.str p.toStr) = some p := by
  cases p <;> rfl

theorem parseConfigOverrides_toJson (c : ConfigOverrides) :
    parseConfigOverrides c.toJson = some c := by
  obtain ⟨m, p⟩ := c
  cases m <;> cases p <;>
    simp [parseConfigOverrides, ConfigOverrides.toJson, optEntry, optFieldP,
      Json.getField, lookupField, asStr, parseApprovalPolicy_toStr]

theorem parseUserMessage_toJson (f : UserMessageFrame)
    (h : f.id.all isUuid = true) : parseUserMessage f.toJson = some f := by
  obtain ⟨id, sid, content, paths, co⟩ := f
  cases id with
  | none =>
    cases sid <;> cases paths <;> cases co <;>
      simp [parseUserMessage, UserMessageFrame.toJson, typeIs, Json.getField,
        lookupField, optEntry, parseIdField, optFieldP, asStr,
        asStrArr_map_str, parseConfigOverrides_toJson]
  | some u =>
    simp only [Option.all_some] at h
    cases sid <;> cases paths <;> cases co <;>
      simp [parseUserMessage, UserMessageFrame.toJson, typeIs, Json.getField,
        lookupField, optEntry, parseIdField, optFieldP, asStr,
        asStrArr_map_str, parseConfigOverrides_toJson, h]

theorem parseApprove_toJson (f : ApproveFrame)
    (h : f.id.all isUuid = true) : parseApprove f.toJson = some f := by
  obtain ⟨id, sid, cid, d, ex⟩ := f
  cases id with
  | none =>
    cases ex <;>
      simp [parseApprove, ApproveFrame.toJson, typeIs, Json.getField,
        lookupField, optEntry, parseIdField, optFieldP, asStr,
        parseDecision_toStr]
  | some u =>
    simp only [Option.all_some] at h
    cases ex <;>
      simp [parseApprove, ApproveFrame.toJson, typeIs, Json.getField,
        lookupField, optEntry, parseIdField, optFieldP, asStr,
        parseDecision_toStr, h]

theorem parseCancel_toJson (f : CancelFrame)
    (h : f.id.all isUuid = true) : parseCancel f.toJson = some f := by
  obtain ⟨id, sid⟩ := f
  cases id with
  | none =>
    simp [parseCancel, CancelFrame.toJson, typeIs, Json.getField, lookupField,
      optEntry, parseIdField, optFieldP, asStr]
  | some u =>
    simp only [Option.all_some] at h
    simp [parseCancel, CancelFrame.toJson, typeIs, Json.getField, lookupField,
      optEntry, parseIdField, optFieldP, asStr, h]

theorem userMessage_toJson_type (f : UserMessageFrame) :
    f.toJson.getField "type" = some (.str "user_message") := by
  obtain ⟨id, _, _, _, _⟩ := f
  cases id <;>
    simp [UserMessageFrame.toJson, Json.getField, lookupField, optEntry]

theorem approve_toJson_type (f : ApproveFrame) :
    f.toJson.getField "type" = some (.str "approve") := by
  obtain ⟨id, _, _, _, _⟩ := f
  cases id <;>
    simp [ApproveFrame.toJson, Json.getField, lookupField, optEntry]

theorem cancel_toJson_type (f : CancelFrame) :
    f.toJson.getField "type" = some (.str "cancel") := by
  obtain ⟨id, _⟩ := f
  cases id <;>
    simp [CancelFrame.toJson, Json.getField, lookupField, optEntry]

theorem typeIs_eq_false (v : Json) (t : String)
    (h : v.getField "type" ≠ some (.str t)) : typeIs v t = false := by
  unfold typeIs
  cases hv : v.getField "type" with
  | none => rfl
  | some j =>
    cases j
    case str s =>
      simp only [decide_eq_false_iff_not]
      intro hs
      exact h (by rw [hv, hs])
    all_goals rfl

theorem parseUserMessage_wrongType (v : Json)
    (h : v.getField "type" ≠ some (.str "user_message")) :
    parseUserMessage v = none := by
  simp [parseUserMessage, typeIs_eq_false v _ h]

theorem parseApprove_wrongType (v : Json)
    (h : v.getField "type" ≠ some (.str "approve")) :
    parseApprove v = none := by
  simp [parseApprove, typeIs_eq_false v _ h]

theorem parseCancel_wrongType (v : Json)
    (h : v.getField "type" ≠ some (.str "cancel")) :
    parseCancel v = none := by
  simp [parseCancel, typeIs_eq_false v _ h]

theorem decodeClientFrame_toJson (f : ClientFrame)
    (h : clientFrameWf f = true) : decodeClientFrame f.toJson = .ok f := by
  cases f with
  | userMessage g =>
    simp [decodeClientFrame, ClientFrame.toJson, parseUserMessage_toJson g h]
  | approve g =>
    rw [decodeClientFrame, ClientFrame.toJson,
      parseUserMessage_wrongType _ (by simp [approve_toJson_type]),
      parseApprove_toJson g h]
  | cancel g =>
    rw [decodeClientFrame, ClientFrame.toJson,
      parseUserMessage_wrongType _ (by simp [cancel_toJson_type]),
      parseApprove_wrongType _ (by simp [cancel_toJson_type]),
      parseCancel_toJson g h]

end WcCodex

namespace WcCodex

theorem parseItem_toJson (f : ItemFrame)
    (h : f.id.all isUuid = true) : parseItem f.toJson = some f := by
  obtain ⟨id, ri⟩ := f
  cases id with
  | none =>
    cases ri <;>
      simp [parseItem, ItemFrame.toJson, typeIs, Json.getField, lookupField,
        optEntry, parseIdField, optFieldP, asStr]
  | some u =>
    simp only [Option.all_some] at h
    cases ri <;>
      simp [parseItem, ItemFrame.toJson, typeIs, Json.getField, lookupField,
        optEntry, parseIdField, optFieldP, asStr, h]

theorem parseCommandPrompt_toJson (f : CommandPromptFrame)
    (h : f.id.all isUuid = true) : parseCommandPrompt f.toJson = some f := by
  obtain ⟨id, cid, cmd, ap, ex⟩ := f
  cases id with
  | none =>
    cases ap <;> cases ex <;>
      simp [parseCommandPrompt, CommandPromptFrame.toJson, typeIs,
        Json.getField, lookupField, optEntry, parseIdField, optFieldP, asStr,
        asStrArr_map_str]
  | some u =>
    simp only [Option.all_some] at h
    cases ap <;> cases ex <;>
      simp [parseCommandPrompt, CommandPromptFrame.toJson, typeIs,
        Json.getField, lookupField, optEntry, parseIdField, optFieldP, asStr,
        asStrArr_map_str, h]

theorem parseStatus_toJson (f : StatusFrame)
    (h : f.id.all isUuid = true) : parseStatus f.toJson = some f := by
  obtain ⟨id, msg, det⟩ := f
  cases id with
  | none =>
    cases det <;>
      simp [parseStatus, StatusFrame.toJson, typeIs, Json.getField,
        lookupField, optEntry, parseIdField, optFieldP, asStr, asRecord]
  | some u =>
    simp only [Option.all_some] at h
    cases det <;>
      simp [parseStatus, StatusFrame.toJson, typeIs, Json.getField,
        lookupField, optEntry, parseIdField, optFieldP, asStr, asRecord, h]

theorem parseError_toJson (f : ErrorFrame)
    (h : f.id.all isUuid = true) : parseError f.toJson = some f := by
  obtain ⟨id, msg, code, retry, det⟩ := f
  cases id with
  | none =>
    cases code <;> cases retry <;> cases det <;>
      simp [parseError, ErrorFrame.toJson, typeIs, Json.getField, lookupField,
        optEntry, parseIdField, optFieldP, asStr, asRecord]
  | some u =>
    simp only [Option.all_some] at h
    cases code <;> cases retry <;> cases det <;>
      simp [parseError, ErrorFrame.toJson, typeIs, Json.getField, lookupField,
        optEntry, parseIdField, optFieldP, asStr, asRecord, h]

theorem parseHeartbeat_toJson (f : HeartbeatFrame)
    (h : f.id.all isUuid = true) (ht : isDatetime f.timestamp = true) :
    parseHeartbeat f.toJson = some f := by
  obtain ⟨id, ts⟩ := f
  cases id with
  | none =>
    simp [parseHeartbeat, HeartbeatFrame.toJson, typeIs, Json.getField,
      lookupField, optEntry, parseIdField, optFieldP, asStr, ht]
  | some u =>
    simp only [Option.all_some] at h
    simp [parseHeartbeat, HeartbeatFrame.toJson, typeIs, Json.getField,
      lookupField, optEntry, parseIdField, optFieldP, asStr, h, ht]

theorem parseTerminate_toJson (f : TerminateFrame)
    (h : f.id.all isUuid = true) : parseTerminate f.toJson = some f := by
  obtain ⟨id, reason, det⟩ := f
  cases id with
  | none =>
    cases det <;>
      simp [parseTerminate, TerminateFrame.toJson, typeIs, Json.getField,
        lookupField, optEntry, parseIdField, optFieldP, asStr, asRecord]
  | some u =>
    simp only [Option.all_some] at h
    cases det <;>
      simp [parseTerminate, TerminateFrame.toJson, typeIs, Json.getField,
        lookupField, optEntry, parseIdField, optFieldP, asStr, asRecord, h]

theorem item_toJson_type (f : ItemFrame) :
    f.toJson.getField "type" = some (.str "item") := by
  obtain ⟨id, _⟩ := f
  cases id <;> simp [ItemFrame.toJson, Json.getField, lookupField, optEntry]

theorem commandPrompt_toJson_type (f : CommandPromptFrame) :
    f.toJson.getField "type" = some (.str "command_prompt") := by
  obtain ⟨id, _, _, _, _⟩ := f
  cases id <;>
    simp [CommandPromptFrame.toJson, Json.getField, lookupField, optEntry]

theorem status_toJson_type (f : StatusFrame) :
    f.toJson.getField "type" = some (.str "status") := by
  obtain ⟨id, _, _⟩ := f
  cases id <;> simp [StatusFrame.toJson, Json.getField, lookupField, optEntry]

theorem error_toJson_type (f : ErrorFrame) :
    f.toJson.getField "type" = some (.str "error") := by
  obtain ⟨id, _, _, _, _⟩ := f
  cases id <;> simp [ErrorFrame.toJson, Json.getField, lookupField, optEntry]

theorem heartbeat_toJson_type (f : HeartbeatFrame) :
    f.toJson.getField "type" = some (.str "heartbeat") := by
  obtain ⟨id, _⟩ := f
  cases id <;>
    simp [HeartbeatFrame.toJson, Json.getField, lookupField, optEntry]

theorem terminate_toJson_type (f : TerminateFrame) :
    f.toJson.getField "type" = some (.str "terminate") := by
  obtain ⟨id, _, _⟩ := f
  cases id <;>
    simp [TerminateFrame.toJson, Json.getField, lookupField, optEntry]

theorem parseItem_wrongType (v : Json)
    (h : v.getField "type" ≠ some (.str "item")) : parseItem v = none := by
  simp [parseItem, typeIs_eq_false v _ h]

theorem parseCommandPrompt_wrongType (v : Json)
    (h : v.getField "type" ≠ some (.str "command_prompt")) :
    parseCommandPrompt v = none := by
  simp [parseCommandPrompt, typeIs_eq_false v _ h]

theorem parseStatus_wrongType (v : Json)
    (h : v.getField "type" ≠ some (.str "status")) : parseStatus v = none := by
  simp [parseStatus, typeIs_eq_false v _ h]

theorem parseError_wrongType (v : Json)
    (h : v.getField "type" ≠ some (.str "error")) : parseError v = none := by
  simp [parseError, typeIs_eq_false v _ h]

theorem parseHeartbeat_wrongType (v : Json)
    (h : v.getField "type" ≠ some (.str "heartbeat")) :
    parseHeartbeat v = none := by
  simp [parseHeartbeat, typeIs_eq_false v _ h]

theorem decodeServerFrame_toJson (f : ServerFrame)
    (h : serverFrameWf f = true) : decodeServerFrame f.toJson = .ok f := by
  cases f with
  | item g =>
    simp only [serverFrameWf] at h
    simp [decodeServerFrame, ServerFrame.toJson, parseItem_toJson g h]
  | commandPrompt g =>
    simp only [serverFrameWf] at h
    rw [decodeServerFrame, ServerFrame.toJson,
      parseItem_wrongType _ (by simp [commandPrompt_toJson_type]),
      parseCommandPrompt_toJson g h]
  | status g =>
    simp only [serverFrameWf] at h
    rw [decodeServerFrame, ServerFrame.toJson,
      parseItem_wrongType _ (by simp [status_toJson_type]),
      parseCommandPrompt_wrongType _ (by simp [status_toJson_type]),
      parseStatus_toJson g h]
  | error g =>
    simp only [serverFrameWf] at h
    rw [decodeServerFrame, ServerFrame.toJson,
      parseItem_wrongType _ (by simp [error_toJson_type]),
      parseCommandPrompt_wrongType _ (by simp [error_toJson_type]),
      parseStatus_wrongType _ (by simp [error_toJson_type]),
      parseError_toJson g h]
  | heartbeat g =>
    simp only [serverFrameWf, Bool.and_eq_true] at h
    rw [decodeServerFrame, ServerFrame.toJson,
      parseItem_wrongType _ (by simp [heartbeat_toJson_type]),
      parseCommandPrompt_wrongType _ (by simp [heartbeat_toJson_type]),
      parseStatus_wrongType _ (by simp [heartbeat_toJson_type]),
      parseError_wrongType _ (by simp [heartbeat_toJson_type]),
      parseHeartbeat_toJson g h.1 h.2]
  | terminate g =>
    simp only [serverFrameWf] at h
    rw [decodeServerFrame, ServerFrame.toJson,
      parseItem_wrongType _ (by simp [terminate_toJson_type]),
      parseCommandPrompt_wrongType _ (by simp [terminate_toJson_type]),
      parseStatus_wrongType _ (by simp [terminate_toJson_type]),
      parseError_wrongType _ (by simp [terminate_toJson_type]),
      parseHeartbeat_wrongType _ (by simp [terminate_toJson_type]),
      parseTerminate_toJson g h]

end WcCodex

namespace WcCodex

/-- C3: For every frame f that is valid under the protocol schema (both
client and server families), decoding the encoding of f yields f again:
`decodeClientFrame (encodeClientFrame f) = f` and
`decodeServerFrame (encodeServerFrame f) = f`. -/
theorem codec_roundtrip :
    (∀ f : ClientFrame, clientFrameWf f = true →
      (encodeClientFrame f).bind decodeClientFrame = .ok f) ∧
    (∀ g : ServerFrame, serverFrameWf g = true →
      (encodeServerFrame g).bind decodeServerFrame = .ok g) := by
  constructor
  · intro f h
    have hd := decodeClientFrame_toJson f h
    rw [encodeClientFrame, hd]
    exact hd
  · intro g h
    have hd := decodeServerFrame_toJson g h
    rw [encodeServerFrame, hd]
    exact hd

/-- Witness for `codec_roundtrip` at a concrete client and server frame. -/
theorem codec_roundtrip_witness :
    ((encodeClientFrame (.cancel ⟨none, "s1"⟩)).bind decodeClientFrame =
      .ok (.cancel ⟨none, "s1"⟩)) ∧
    ((encodeServerFrame (.status ⟨none, "ok", none⟩)).bind decodeServerFrame =
      .ok (.status ⟨none, "ok", none⟩)) :=
  ⟨codec_roundtrip.1 _ (by decide), codec_roundtrip.2 _ (by decide)⟩

/-! ## Malformed input (C9) -/

/-- Input whose JSON lacks a known client `type` discriminator, or lacks a
required field of the corresponding union member. -/
def clientMissingRequired (v : Json) : Bool :=
  match v.getField "type" with
  | some (.str "user_message") => (v.getField "content").isNone
  | some (.str "approve") =>
    (v.getField "sessionId").isNone || (v.getField "commandId").isNone ||
      (v.getField "decision").isNone
  | some (.str "cancel") => (v.getField "sessionId").isNone
  | _ => true

/-- Same for the server family (`item` has no required field beyond the
discriminator). -/
def serverMissingRequired (v : Json) : Bool :=
  match v.getField "type" with
  | some (.str "item") => false
  | some (.str "command_prompt") =>
    (v.getField "commandId").isNone || (v.getField "command").isNone
  | some (.str "status") => (v.getField "message").isNone
  | some (.str "error") => (v.getField "message").isNone
  | some (.str "heartbeat") => (v.getField "timestamp").isNone
  | some (.str "terminate") => (v.getField "reason").isNone
  | _ => true

theorem parseUserMessage_noContent (v : Json)
    (h : v.getField "content" = none) : parseUserMessage v = none := by
  unfold parseUserMessage
  split
  · cases hp : parseIdField v <;>
      cases hq : optFieldP v "sessionId" asStr <;>
      simp [h]
  · rfl

theorem parseApprove_missing (v : Json)
    (h : v.getField "sessionId" = none ∨ v.getField "commandId" = none ∨
      v.getField "decision" = none) : parseApprove v = none := by
  unfold parseApprove
  split
  · cases hp : parseIdField v
    · simp
    · rcases h with h | h | h
      · simp [h]
      · cases hq : (v.getField "sessionId").bind asStr <;> simp [h]
      · cases hq : (v.getField "sessionId").bind asStr <;>
          cases hr : (v.getField "commandId").bind asStr <;> simp [h]
  · rfl

theorem parseCancel_missing (v : Json)
    (h : v.getField "sessionId" = none) : parseCancel v = none := by
  unfold parseCancel
  split
  · cases hp : parseIdField v <;> simp [h]
  · rfl

theorem parseCommandPrompt_missing (v : Json)
    (h : v.getField "commandId" = none ∨ v.getField "command" = none) :
    parseCommandPrompt v = none := by
  unfold parseCommandPrompt
  split
  · cases hp : parseIdField v
    · simp
    · rcases h with h | h
      · simp [h]
      · cases hq : (v.getField "commandId").bind asStr <;> simp [h]
  · rfl

theorem parseStatus_missing (v : Json)
    (h : v.getField "message" = none) : parseStatus v = none := by
  unfold parseStatus
  split
  · cases hp : parseIdField v <;> simp [h]
  · rfl

theorem parseError_missing (v : Json)
    (h : v.getField "message" = none) : parseError v = none := by
  unfold parseError
  split
  · cases hp : parseIdField v <;> simp [h]
  · rfl

theorem parseHeartbeat_missing (v : Json)
    (h : v.getField "timestamp" = none) : parseHeartbeat v = none := by
  unfold parseHeartbeat
  split
  · cases hp : parseIdField v <;> simp [h]
  · rfl

theorem parseTerminate_missing (v : Json)
    (h : v.getField "reason" = none) : parseTerminate v = none := by
  unfold parseTerminate
  split
  · cases hp : parseIdField v <;> simp [h]
  · rfl

end WcCodex

namespace WcCodex

theorem parseTerminate_wrongType (v : Json)
    (h : v.getField "type" ≠ some (.str "terminate")) :
    parseTerminate v = none := by
  simp [parseTerminate, typeIs_eq_false v _ h]

theorem decodeClientFrame_malformed (v : Json)
    (hc : clientMissingRequired v = true) : decodeClientFrame v = .error v := by
  unfold clientMissingRequired at hc
  cases hv : v.getField "type" with
  | none =>
    rw [decodeClientFrame, parseUserMessage_wrongType v (by simp [hv]),
      parseApprove_wrongType v (by simp [hv]),
      parseCancel_wrongType v (by simp [hv])]
  | some j =>
    rw [hv] at hc
    cases j
    case str t =>
      by_cases h1 : t = "user_message"
      · subst h1
        simp only [Option.isNone_iff_eq_none] at hc
        rw [decodeClientFrame, parseUserMessage_noContent v hc,
          parseApprove_wrongType v (by simp [hv]),
          parseCancel_wrongType v (by simp [hv])]
      · by_cases h2 : t = "approve"
        · subst h2
          simp only [Bool.or_eq_true, Option.isNone_iff_eq_none] at hc
          rw [decodeClientFrame, parseUserMessage_wrongType v (by simp [hv]),
            parseApprove_missing v (by tauto),
            parseCancel_wrongType v (by simp [hv])]
        · by_cases h3 : t = "cancel"
          · subst h3
            simp only [Option.isNone_iff_eq_none] at hc
            rw [decodeClientFrame,
              parseUserMessage_wrongType v (by simp [hv]),
              parseApprove_wrongType v (by simp [hv]),
              parseCancel_missing v hc]
          · rw [decodeClientFrame,
              parseUserMessage_wrongType v (by simp [hv, h1]),
              parseApprove_wrongType v (by simp [hv, h2]),
              parseCancel_wrongType v (by simp [hv, h3])]
    all_goals
      rw [decodeClientFrame, parseUserMessage_wrongType v (by simp [hv]),
        parseApprove_wrongType v (by simp [hv]),
        parseCancel_wrongType v (by simp [hv])]

theorem decodeServerFrame_malformed (w : Json)
    (hs : serverMissingRequired w = true) : decodeServerFrame w = .error w := by
  unfold serverMissingRequired at hs
  cases hv : w.getField "type" with
  | none =>
    rw [decodeServerFrame, parseItem_wrongType w (by simp [hv]),
      parseCommandPrompt_wrongType w (by simp [hv]),
      parseStatus_wrongType w (by simp [hv]),
      parseError_wrongType w (by simp [hv]),
      parseHeartbeat_wrongType w (by simp [hv]),
      parseTerminate_wrongType w (by simp [hv])]
  | some j =>
    rw [hv] at hs
    cases j
    case str t =>
      by_cases h1 : t = "item"
      · subst h1; simp at hs
      · by_cases h2 : t = "command_prompt"
        · subst h2
          simp only [Bool.or_eq_true, Option.isNone_iff_eq_none] at hs
          rw [decodeServerFrame, parseItem_wrongType w (by simp [hv]),
            parseCommandPrompt_missing w (by tauto),
            parseStatus_wrongType w (by simp [hv]),
            parseError_wrongType w (by simp [hv]),
            parseHeartbeat_wrongType w (by simp [hv]),
            parseTerminate_wrongType w (by simp [hv])]
        · by_cases h3 : t = "status"
          · subst h3
            simp only [Option.isNone_iff_eq_none] at hs
            rw [decodeServerFrame, parseItem_wrongType w (by simp [hv]),
              parseCommandPrompt_wrongType w (by simp [hv]),
              parseStatus_missing w hs,
              parseError_wrongType w (by simp [hv]),
              parseHeartbeat_wrongType w (by simp [hv]),
              parseTerminate_wrongType w (by simp [hv])]
          · by_cases h4 : t = "error"
            · subst h4
              simp only [Option.isNone_iff_eq_none] at hs
              rw [decodeServerFrame, parseItem_wrongType w (by simp [hv]),
                parseCommandPrompt_wrongType w (by simp [hv]),
                parseStatus_wrongType w (by simp [hv]),
                parseError_missing w hs,
                parseHeartbeat_wrongType w (by simp [hv]),
                parseTerminate_wrongType w (by simp [hv])]
            · by_cases h5 : t = "heartbeat"
              · subst h5
                simp only [Option.isNone_iff_eq_none] at hs
                rw [decodeServerFrame, parseItem_wrongType w (by simp [hv]),
                  parseCommandPrompt_wrongType w (by simp [hv]),
                  parseStatus_wrongType w (by simp [hv]),
                  parseError_wrongType w (by simp [hv]),
                  parseHeartbeat_missing w hs,
                  parseTerminate_wrongType w (by simp [hv])]
              · by_cases h6 : t = "terminate"
                · subst h6
                  simp only [Option.isNone_iff_eq_none] at hs
                  rw [decodeServerFrame, parseItem_wrongType w (by simp [hv]),
                    parseCommandPrompt_wrongType w (by simp [hv]),
                    parseStatus_wrongType w (by simp [hv]),
                    parseError_wrongType w (by simp [hv]),
                    parseHeartbeat_wrongType w (by simp [hv]),
                    parseTerminate_missing w hs]
                · rw [decodeServerFrame,
                    parseItem_wrongType w (by simp [hv, h1]),
                    parseCommandPrompt_wrongType w (by simp [hv, h2]),
                    parseStatus_wrongType w (by simp [hv, h3]),
                    parseError_wrongType w (by simp [hv, h4]),
                    parseHeartbeat_wrongType w (by simp [hv, h5]),
                    parseTerminate_wrongType w (by simp [hv, h6])]
    all_goals
      rw [decodeServerFrame, parseItem_wrongType w (by simp [hv]),
        parseCommandPrompt_wrongType w (by simp [hv]),
        parseStatus_wrongType w (by simp [hv]),
        parseError_wrongType w (by simp [hv]),
        parseHeartbeat_wrongType w (by simp [hv]),
        parseTerminate_wrongType w (by simp [hv])]

/-- C9: For every input whose JSON lacks a known type discriminator or any
required field of the corresponding union member (e.g. an approve frame
without commandId), decode fails with an error carrying the offending raw
payload, and never returns a frame. -/
theorem decode_rejects_malformed (v w : Json)
    (hc : clientMissingRequired v = true)
    (hs : serverMissingRequired w = true) :
    decodeClientFrame v = .error v ∧ decodeServerFrame w = .error w :=
  ⟨decodeClientFrame_malformed v hc, decodeServerFrame_malformed w hs⟩

/-- Witness for `decode_rejects_malformed`: an approve frame without
`commandId` and a status frame without `message`. -/
theorem decode_rejects_malformed_witness :
    decodeClientFrame (.obj [("type", .str "approve"),
        ("sessionId", .str "s1")]) =
      .error (.obj [("type", .str "approve"), ("sessionId", .str "s1")]) ∧
    decodeServerFrame (.obj [("type", .str "status")]) =
      .error (.obj [("type", .str "status")]) :=
  decode_rejects_malformed _ _ (by decide) (by decide)

end WcCodex

namespace WcCodex

/-! ## Stream transport: `readFrames` (http2 transport)

Bytes are modelled as `List Nat`.  The decode step
(`decodeClientFrame(messageBuffer.toString("utf-8"))`) and the blank-line
test (`line.trim() === ""`) are abstracted as parameters `dec` and
`isBlank`; once the decoder throws, the generator returns, so nothing
after an abort is consumed (the dead buffer is dropped). -/


def readUInt32BE : List Nat → Nat
  | b0 :: b1 :: b2 :: b3 :: _ => ((b0 * 256 + b1) * 256 + b2) * 256 + b3
  | _ => 0

inductive LPPhase where
  | top (readingLength : Bool) (expectedLength : Nat)
  | msg (expectedLength : Nat)

def LPPhase.rank : LPPhase → Nat
  | .top true _ => 0
  | .top false _ => 2
  | .msg _ => 1

structure LPState where
  buffer : List Nat
  readingLength : Bool
  expectedLength : Nat
  aborted : Bool
deriving DecidableEq

def drainLPAux (dec : List Nat → Option α) (buffer : List Nat)
    (ph : LPPhase) : List α × LPState :=
  match ph with
  | .top rl e =>
    if buffer.isEmpty then ([], ⟨buffer, rl, e, false⟩)
    else
      match rl with
      | true =>
        if 4 ≤ buffer.length then
          drainLPAux dec (buffer.drop 4) (.msg (readUInt32BE buffer))
        else ([], ⟨buffer, true, e, false⟩)
      | false => drainLPAux dec buffer (.msg e)
  | .msg e =>
    if e ≤ buffer.length then
      match dec (buffer.take e) with
      | some a =>
        let r := drainLPAux dec (buffer.drop e) (.top true e)
        (a :: r.1, r.2)
      | none => ([], ⟨[], true, e, true⟩)
    else ([], ⟨buffer, false, e, false⟩)
termination_by 2 * buffer.length + ph.rank
decreasing_by
  · simp only [LPPhase.rank, List.length_drop]
    omega
  · simp only [LPPhase.rank]
    omega
  · simp only [LPPhase.rank, List.length_drop]
    omega

def idxOfByte (b : Nat) : List Nat → Option Nat
  | [] => none
  | x :: xs => if x = b then some 0 else (idxOfByte b xs).map (· + 1)

theorem idxOfByte_lt {b : Nat} :
    ∀ {l : List Nat} {i : Nat}, idxOfByte b l = some i → i < l.length := by
  intro l
  induction l with
  | nil => intro i h; simp [idxOfByte] at h
  | cons x xs ih =>
    intro i h
    unfold idxOfByte at h
    by_cases hx : x = b
    · rw [if_pos hx] at h
      cases h
      simp
    · rw [if_neg hx] at h
      cases hj : idxOfByte b xs with
      | none => rw [hj] at h; simp at h
      | some j =>
        rw [hj] at h
        simp only [Option.map_some'] at h
        cases h
        have := ih hj
        simp only [List.length_cons]
        omega

structure NDState where
  buffer : List Nat
  aborted : Bool
deriving DecidableEq

def drainND (dec : List Nat → Option α) (isBlank : List Nat → Bool)
    (buffer : List Nat) : List α × NDState :=
  match hIdx : idxOfByte 10 buffer with
  | some i =>
    if isBlank (buffer.take i) then drainND dec isBlank (buffer.drop (i + 1))
    else
      match dec (buffer.take i) with
      | some a =>
        let r := drainND dec isBlank (buffer.drop (i + 1))
        (a :: r.1, r.2)
      | none => ([], ⟨[], true⟩)
  | none => ([], ⟨buffer, false⟩)
termination_by buffer.length
decreasing_by
  · have h := idxOfByte_lt hIdx
    simp only [List.length_drop]
    omega
  · have h := idxOfByte_lt hIdx
    simp only [List.length_drop]
    omega


/-- Initial transport state (`buffer = alloc(0)`, `readingLength = true`,
`expectedLength = 0`). -/
def initLP : LPState := ⟨[], true, 0, false⟩

/-- Processing of one stream chunk under the length-prefixed framing
(`buffer = Buffer.concat([buffer, chunk])`, then the drain loop).  A
returned generator consumes nothing further. -/
def feedLP (dec : List Nat → Option α) (s : LPState) (chunk : List Nat) :
    List α × LPState :=
  if s.aborted then ([], s)
  else drainLPAux dec (s.buffer ++ chunk) (.top s.readingLength s.expectedLength)

/-- Iterated chunk processing (the `for await (const chunk of stream)`). -/
def feedAllLP (dec : List Nat → Option α) (s : LPState) :
    List (List Nat) → List α × LPState
  | [] => ([], s)
  | c :: cs =>
    let r1 := feedLP dec s c
    let r2 := feedAllLP dec r1.2 cs
    (r1.1 ++ r2.1, r2.2)

/-- The frames yielded by `readFrames` on a chunked input stream under the
length-prefixed framing (this framing has no trailing flush). -/
def readFramesLP (dec : List Nat → Option α) (chunks : List (List Nat)) :
    List α :=
  (feedAllLP dec initLP chunks).1

def initND : NDState := ⟨[], false⟩

/-- Processing of one stream chunk under the NDJSON framing. -/
def feedND (dec : List Nat → Option α) (isBlank : List Nat → Bool)
    (s : NDState) (chunk : List Nat) : List α × NDState :=
  if s.aborted then ([], s)
  else drainND dec isBlank (s.buffer ++ chunk)

def feedAllND (dec : List Nat → Option α) (isBlank : List Nat → Bool)
    (s : NDState) : List (List Nat) → List α × NDState
  | [] => ([], s)
  | c :: cs =>
    let r1 := feedND dec isBlank s c
    let r2 := feedAllND dec isBlank r1.2 cs
    (r1.1 ++ r2.1, r2.2)

/-- The trailing flush after the stream ends (`if (buffer.length > 0 &&
!useLengthPrefix) ...`): a decode failure here is swallowed. -/
def flushND (dec : List Nat → Option α) (isBlank : List Nat → Bool)
    (buf : List Nat) : List α :=
  if 0 < buf.length && !(isBlank buf) then (dec buf).toList else []

/-- The frames yielded by `readFrames` on a chunked input stream under the
NDJSON framing, including the trailing flush (skipped when the generator
already returned on a decode error). -/
def readFramesND (dec : List Nat → Option α) (isBlank : List Nat → Bool)
    (chunks : List (List Nat)) : List α :=
  let r := feedAllND dec isBlank initND chunks
  if r.2.aborted then r.1 else r.1 ++ flushND dec isBlank r.2.buffer

end WcCodex

namespace WcCodex

theorem readUInt32BE_append (buf : List Nat) (h : 4 ≤ buf.length)
    (extra : List Nat) : readUInt32BE (buf ++ extra) = readUInt32BE buf := by
  cases buf with
  | nil => simp at h
  | cons b0 t0 =>
    cases t0 with
    | nil => simp at h
    | cons b1 t1 =>
      cases t1 with
      | nil => simp at h
      | cons b2 t2 =>
        cases t2 with
        | nil => simp at h
        | cons b3 t3 => rfl

theorem drainLP_nil (dec : List Nat → Option α) (rl : Bool) (e : Nat) :
    drainLPAux dec [] (.top rl e) = ([], ⟨[], rl, e, false⟩) := by
  rw [drainLPAux.eq_def]
  rfl

theorem bufNe_isEmpty {buf : List Nat} (hne : buf ≠ []) :
    ¬ (buf.isEmpty = true) := by
  cases buf with
  | nil => simp at hne
  | cons x xs => simp

theorem drainLP_top_true (dec : List Nat → Option α) (buf : List Nat)
    (e : Nat) (h : 4 ≤ buf.length) :
    drainLPAux dec buf (.top true e) =
      drainLPAux dec (buf.drop 4) (.msg (readUInt32BE buf)) := by
  have hne : buf ≠ [] := by
    cases buf with
    | nil => simp at h
    | cons x xs => simp
  rw [drainLPAux.eq_def]
  dsimp only
  rw [if_neg (bufNe_isEmpty hne), if_pos h]

theorem drainLP_top_true_short (dec : List Nat → Option α) (buf : List Nat)
    (e : Nat) (hne : buf ≠ []) (h : buf.length < 4) :
    drainLPAux dec buf (.top true e) = ([], ⟨buf, true, e, false⟩) := by
  rw [drainLPAux.eq_def]
  dsimp only
  rw [if_neg (bufNe_isEmpty hne), if_neg (by omega)]

theorem drainLP_top_false (dec : List Nat → Option α) (buf : List Nat)
    (e : Nat) (hne : buf ≠ []) :
    drainLPAux dec buf (.top false e) = drainLPAux dec buf (.msg e) := by
  rw [drainLPAux.eq_def]
  dsimp only
  rw [if_neg (bufNe_isEmpty hne)]

theorem drainLP_msg_some (dec : List Nat → Option α) (buf : List Nat)
    (e : Nat) (a : α) (h : e ≤ buf.length) (hd : dec (buf.take e) = some a) :
    drainLPAux dec buf (.msg e) =
      (a :: (drainLPAux dec (buf.drop e) (.top true e)).1,
        (drainLPAux dec (buf.drop e) (.top true e)).2) := by
  rw [drainLPAux.eq_def]
  dsimp only
  rw [if_pos h, hd]

theorem drainLP_msg_none (dec : List Nat → Option α) (buf : List Nat)
    (e : Nat) (h : e ≤ buf.length) (hd : dec (buf.take e) = none) :
    drainLPAux dec buf (.msg e) = ([], ⟨[], true, e, true⟩) := by
  rw [drainLPAux.eq_def]
  dsimp only
  rw [if_pos h, hd]

theorem drainLP_msg_short (dec : List Nat → Option α) (buf : List Nat)
    (e : Nat) (h : buf.length < e) :
    drainLPAux dec buf (.msg e) = ([], ⟨buf, false, e, false⟩) := by
  rw [drainLPAux.eq_def]
  dsimp only
  rw [if_neg (by omega)]

end WcCodex

namespace WcCodex

/-- Draining a buffer with `extra` appended equals draining the buffer
alone and then resuming from the resulting state with `extra` appended —
unless the first drain aborted, in which case nothing further happens. -/
theorem drainLPAux_append (dec : List Nat → Option α) (buf : List Nat)
    (ph : LPPhase) :
    ∀ extra : List Nat,
      drainLPAux dec (buf ++ extra) ph =
        (let r := drainLPAux dec buf ph
         if r.2.aborted then r
         else
           (r.1 ++ (drainLPAux dec (r.2.buffer ++ extra)
               (.top r.2.readingLength r.2.expectedLength)).1,
             (drainLPAux dec (r.2.buffer ++ extra)
               (.top r.2.readingLength r.2.expectedLength)).2)) := by
  induction buf, ph using drainLPAux.induct dec with
  | case1 buf rl e hempty =>
    intro extra
    have hb : buf = [] := by
      cases buf with
      | nil => rfl
      | cons x xs => simp at hempty
    subst hb
    simp [drainLP_nil]
  | case2 buf e hempty h4 ih =>
    intro extra
    have hne : buf ≠ [] := by
      cases buf with
      | nil => simp at hempty
      | cons x xs => simp
    have h4' : 4 ≤ (buf ++ extra).length := by
      simp only [List.length_append]
      omega
    rw [drainLP_top_true dec (buf ++ extra) e h4',
      List.drop_append_of_le_length h4, readUInt32BE_append buf h4 extra,
      ih extra, drainLP_top_true dec buf e h4]
  | case3 buf e hempty h4 =>
    intro extra
    have hne : buf ≠ [] := by
      cases buf with
      | nil => simp at hempty
      | cons x xs => simp
    have hne2 : buf ++ extra ≠ [] := by
      cases buf with
      | nil => simp at hempty
      | cons x xs => simp
    rw [drainLP_top_true_short dec buf e hne (by omega)]
    simp
  | case4 buf e hempty ih =>
    intro extra
    have hne : buf ≠ [] := by
      cases buf with
      | nil => simp at hempty
      | cons x xs => simp
    have hne2 : buf ++ extra ≠ [] := by
      cases buf with
      | nil => simp at hempty
      | cons x xs => simp
    rw [drainLP_top_false dec (buf ++ extra) e hne2, ih extra,
      drainLP_top_false dec buf e hne]
  | case5 buf e hlen a hdec ih =>
    intro extra
    have hlen2 : e ≤ (buf ++ extra).length := by
      simp only [List.length_append]
      omega
    rw [drainLP_msg_some dec (buf ++ extra) e a hlen2
        (by rw [List.take_append_of_le_length hlen, hdec]),
      List.drop_append_of_le_length hlen,
      drainLP_msg_some dec buf e a hlen hdec]
    simp only [ih extra]
    cases hab : (drainLPAux dec (buf.drop e) (.top true e)).2.aborted <;>
      simp [hab]
  | case6 buf e hlen hdec =>
    intro extra
    have hlen2 : e ≤ (buf ++ extra).length := by
      simp only [List.length_append]
      omega
    rw [drainLP_msg_none dec (buf ++ extra) e hlen2
        (by rw [List.take_append_of_le_length hlen, hdec]),
      drainLP_msg_none dec buf e hlen hdec]
    simp
  | case7 buf e hlen =>
    intro extra
    rw [drainLP_msg_short dec buf e (by omega)]
    simp only
    by_cases hx : buf ++ extra = []
    · have hb : buf = [] := by
        cases buf with
        | nil => rfl
        | cons x xs => simp at hx
      have he : extra = [] := by
        cases extra with
        | nil => rfl
        | cons x xs => simp [hb] at hx
      subst hb; subst he
      simp only [List.append_nil]
      rw [drainLP_nil, drainLP_msg_short dec [] e
        (by simp only [List.length_nil] at hlen ⊢; omega)]
      simp
    · rw [drainLP_top_false dec (buf ++ extra) e hx]
      simp

end WcCodex

namespace WcCodex

/-- Feeding the concatenation of two chunks equals feeding them one after
the other. -/
theorem feedLP_append (dec : List Nat → Option α) (s : LPState)
    (c d : List Nat) :
    feedLP dec s (c ++ d) =
      ((feedLP dec s c).1 ++ (feedLP dec (feedLP dec s c).2 d).1,
        (feedLP dec (feedLP dec s c).2 d).2) := by
  by_cases hab : s.aborted
  · simp [feedLP, hab]
  · simp only [feedLP, hab, if_false, Bool.false_eq_true]
    rw [← List.append_assoc, drainLPAux_append]
    cases hab2 : (drainLPAux dec (s.buffer ++ c)
        (.top s.readingLength s.expectedLength)).2.aborted <;>
      simp [hab2]

/-- A state is quiescent when feeding nothing more produces nothing: the
generator has either returned, or its buffer holds no complete frame. -/
def stuckLP (dec : List Nat → Option α) (s : LPState) : Prop :=
  s.aborted = true ∨
    drainLPAux dec s.buffer (.top s.readingLength s.expectedLength) = ([], s)

theorem drainLPAux_post_stuck (dec : List Nat → Option α) (buf : List Nat)
    (ph : LPPhase) : stuckLP dec (drainLPAux dec buf ph).2 := by
  by_cases hab : (drainLPAux dec buf ph).2.aborted
  · exact Or.inl hab
  · right
    have h := drainLPAux_append dec buf ph []
    simp only [List.append_nil] at h
    rw [if_neg (by simp [hab])] at h
    have h1 := congrArg Prod.fst h
    have h2 := congrArg Prod.snd h
    simp only at h1 h2
    have h3 : (drainLPAux dec (drainLPAux dec buf ph).2.buffer
        (.top (drainLPAux dec buf ph).2.readingLength
          (drainLPAux dec buf ph).2.expectedLength)).1 = [] := by
      simpa using h1.symm
    rw [Prod.ext_iff]
    exact ⟨h3, h2.symm⟩

theorem feedLP_stuck (dec : List Nat → Option α) (s : LPState)
    (c : List Nat) : stuckLP dec (feedLP dec s c).2 := by
  by_cases hab : s.aborted
  · simp only [feedLP, hab, if_true]
    exact Or.inl hab
  · simp only [feedLP, hab, if_false, Bool.false_eq_true]
    exact drainLPAux_post_stuck dec (s.buffer ++ c)
      (.top s.readingLength s.expectedLength)

theorem feedLP_nil_of_stuck (dec : List Nat → Option α) (s : LPState)
    (h : stuckLP dec s) : feedLP dec s [] = ([], s) := by
  rcases h with h | h
  · simp [feedLP, h]
  · by_cases hab : s.aborted
    · simp [feedLP, hab]
    · simp only [feedLP, hab, if_false, Bool.false_eq_true, List.append_nil]
      exact h

/-- Feeding a chunk list from a quiescent state equals feeding the
concatenation at once. -/
theorem feedAllLP_eq_join (dec : List Nat → Option α)
    (chunks : List (List Nat)) :
    ∀ s : LPState, stuckLP dec s →
      feedAllLP dec s chunks = feedLP dec s chunks.flatten := by
  induction chunks with
  | nil =>
    intro s hs
    simp only [feedAllLP, List.flatten_nil]
    exact (feedLP_nil_of_stuck dec s hs).symm
  | cons c cs ih =>
    intro s hs
    simp only [feedAllLP, List.flatten_cons]
    rw [ih (feedLP dec s c).2 (feedLP_stuck dec s c), feedLP_append]

end WcCodex

namespace WcCodex

theorem initLP_stuck (dec : List Nat → Option α) : stuckLP dec initLP :=
  Or.inr (drainLP_nil dec true 0)

/-- Under the length-prefixed framing, any chunking of a byte sequence
yields the same frames as feeding it whole. -/
theorem readFramesLP_chunks (dec : List Nat → Option α)
    (chunks : List (List Nat)) :
    readFramesLP dec chunks = readFramesLP dec [chunks.flatten] := by
  unfold readFramesLP
  rw [feedAllLP_eq_join dec chunks initLP (initLP_stuck dec)]
  simp only [feedAllLP, List.append_nil]

theorem idxOfByte_append_some {b : Nat} :
    ∀ {buf : List Nat} {i : Nat}, idxOfByte b buf = some i →
      ∀ extra, idxOfByte b (buf ++ extra) = some i := by
  intro buf
  induction buf with
  | nil => intro i h; simp [idxOfByte] at h
  | cons x xs ih =>
    intro i h extra
    simp only [idxOfByte, List.cons_append, List.append_eq] at h ⊢
    by_cases hx : x = b
    · rw [if_pos hx] at h ⊢
      exact h
    · rw [if_neg hx] at h ⊢
      cases hj : idxOfByte b xs with
      | none => rw [hj] at h; simp at h
      | some j =>
        rw [hj] at h
        simp only [Option.map_some'] at h
        rw [ih hj extra]
        simpa using h

theorem idxOfByte_append_none {b : Nat} :
    ∀ {buf : List Nat}, idxOfByte b buf = none →
      ∀ extra, idxOfByte b (buf ++ extra) =
        (idxOfByte b extra).map (· + buf.length) := by
  intro buf
  induction buf with
  | nil =>
    intro _ extra
    simp
  | cons x xs ih =>
    intro h extra
    simp only [idxOfByte, List.cons_append, List.append_eq] at h ⊢
    by_cases hx : x = b
    · rw [if_pos hx] at h
      simp at h
    · rw [if_neg hx] at h ⊢
      have hxs : idxOfByte b xs = none := by
        cases hj : idxOfByte b xs with
        | none => rfl
        | some j => rw [hj] at h; simp at h
      rw [ih hxs extra]
      cases idxOfByte b extra with
      | none => simp
      | some j =>
        simp only [Option.map_some', List.length_cons]
        congr 1

theorem drainND_step_none (dec : List Nat → Option α)
    (isBlank : List Nat → Bool) (buf : List Nat)
    (h : idxOfByte 10 buf = none) :
    drainND dec isBlank buf = ([], ⟨buf, false⟩) := by
  rw [drainND.eq_def]
  split
  · rename_i i heq
    rw [h] at heq
    cases heq
  · rfl

theorem drainND_step_blank (dec : List Nat → Option α)
    (isBlank : List Nat → Bool) (buf : List Nat) (i : Nat)
    (h : idxOfByte 10 buf = some i) (hb : isBlank (buf.take i) = true) :
    drainND dec isBlank buf = drainND dec isBlank (buf.drop (i + 1)) := by
  rw [drainND.eq_def]
  split
  · rename_i j heq
    rw [h] at heq
    cases heq
    rw [if_pos hb]
  · rename_i heq
    rw [h] at heq
    cases heq

theorem drainND_step_some (dec : List Nat → Option α)
    (isBlank : List Nat → Bool) (buf : List Nat) (i : Nat) (a : α)
    (h : idxOfByte 10 buf = some i) (hb : isBlank (buf.take i) = false)
    (hd : dec (buf.take i) = some a) :
    drainND dec isBlank buf =
      (a :: (drainND dec isBlank (buf.drop (i + 1))).1,
        (drainND dec isBlank (buf.drop (i + 1))).2) := by
  rw [drainND.eq_def]
  split
  · rename_i j heq
    rw [h] at heq
    cases heq
    rw [if_neg (by simp [hb]), hd]
  · rename_i heq
    rw [h] at heq
    cases heq

theorem drainND_step_abort (dec : List Nat → Option α)
    (isBlank : List Nat → Bool) (buf : List Nat) (i : Nat)
    (h : idxOfByte 10 buf = some i) (hb : isBlank (buf.take i) = false)
    (hd : dec (buf.take i) = none) :
    drainND dec isBlank buf = ([], ⟨[], true⟩) := by
  rw [drainND.eq_def]
  split
  · rename_i j heq
    rw [h] at heq
    cases heq
    rw [if_neg (by simp [hb]), hd]
  · rename_i heq
    rw [h] at heq
    cases heq

end WcCodex

namespace WcCodex

/-- NDJSON analogue of `drainLPAux_append`. -/
theorem drainND_append (dec : List Nat → Option α)
    (isBlank : List Nat → Bool) (buf : List Nat) :
    ∀ extra : List Nat,
      drainND dec isBlank (buf ++ extra) =
        (let r := drainND dec isBlank buf
         if r.2.aborted then r
         else
           (r.1 ++ (drainND dec isBlank (r.2.buffer ++ extra)).1,
             (drainND dec isBlank (r.2.buffer ++ extra)).2)) := by
  induction buf using drainND.induct dec isBlank with
  | case1 buf i hidx hblank ih =>
    intro extra
    have hlt := idxOfByte_lt hidx
    have hidx2 := idxOfByte_append_some hidx extra
    have htake : (buf ++ extra).take i = buf.take i :=
      List.take_append_of_le_length (by omega)
    have hdrop : (buf ++ extra).drop (i + 1) = buf.drop (i + 1) ++ extra :=
      List.drop_append_of_le_length (by omega)
    rw [drainND_step_blank dec isBlank (buf ++ extra) i hidx2
        (by rw [htake]; exact hblank),
      hdrop, ih extra, drainND_step_blank dec isBlank buf i hidx hblank]
  | case2 buf i hidx hblank a hdec ih =>
    intro extra
    have hlt := idxOfByte_lt hidx
    have hidx2 := idxOfByte_append_some hidx extra
    have htake : (buf ++ extra).take i = buf.take i :=
      List.take_append_of_le_length (by omega)
    have hdrop : (buf ++ extra).drop (i + 1) = buf.drop (i + 1) ++ extra :=
      List.drop_append_of_le_length (by omega)
    have hblank2 : isBlank (buf.take i) = false := by
      cases hb : isBlank (buf.take i) with
      | false => rfl
      | true => exact absurd hb hblank
    rw [drainND_step_some dec isBlank (buf ++ extra) i a hidx2
        (by rw [htake]; exact hblank2) (by rw [htake]; exact hdec),
      hdrop, drainND_step_some dec isBlank buf i a hidx hblank2 hdec]
    simp only [ih extra]
    cases hab : (drainND dec isBlank (buf.drop (i + 1))).2.aborted <;>
      simp [hab]
  | case3 buf i hidx hblank hdec =>
    intro extra
    have hlt := idxOfByte_lt hidx
    have hidx2 := idxOfByte_append_some hidx extra
    have htake : (buf ++ extra).take i = buf.take i :=
      List.take_append_of_le_length (by omega)
    have hblank2 : isBlank (buf.take i) = false := by
      cases hb : isBlank (buf.take i) with
      | false => rfl
      | true => exact absurd hb hblank
    rw [drainND_step_abort dec isBlank (buf ++ extra) i hidx2
        (by rw [htake]; exact hblank2) (by rw [htake]; exact hdec),
      drainND_step_abort dec isBlank buf i hidx hblank2 hdec]
    simp
  | case4 buf hidx =>
    intro extra
    rw [drainND_step_none dec isBlank buf hidx]
    simp

/-- Feeding the concatenation of two chunks equals feeding them one after
the other (NDJSON framing). -/
theorem feedND_append (dec : List Nat → Option α)
    (isBlank : List Nat → Bool) (s : NDState) (c d : List Nat) :
    feedND dec isBlank s (c ++ d) =
      ((feedND dec isBlank s c).1 ++
          (feedND dec isBlank (feedND dec isBlank s c).2 d).1,
        (feedND dec isBlank (feedND dec isBlank s c).2 d).2) := by
  by_cases hab : s.aborted
  · simp [feedND, hab]
  · simp only [feedND, hab, if_false, Bool.false_eq_true]
    rw [← List.append_assoc, drainND_append]
    cases hab2 : (drainND dec isBlank (s.buffer ++ c)).2.aborted <;>
      simp [hab2]

def stuckND (dec : List Nat → Option α) (isBlank : List Nat → Bool)
    (s : NDState) : Prop :=
  s.aborted = true ∨ drainND dec isBlank s.buffer = ([], s)

theorem drainND_post_stuck (dec : List Nat → Option α)
    (isBlank : List Nat → Bool) (buf : List Nat) :
    stuckND dec isBlank (drainND dec isBlank buf).2 := by
  by_cases hab : (drainND dec isBlank buf).2.aborted
  · exact Or.inl hab
  · right
    have h := drainND_append dec isBlank buf []
    simp only [List.append_nil] at h
    rw [if_neg (by simp [hab])] at h
    have h1 := congrArg Prod.fst h
    have h2 := congrArg Prod.snd h
    simp only at h1 h2
    have h3 : (drainND dec isBlank (drainND dec isBlank buf).2.buffer).1 =
        [] := by
      simpa using h1.symm
    rw [Prod.ext_iff]
    exact ⟨h3, h2.symm⟩

theorem feedND_stuck (dec : List Nat → Option α) (isBlank : List Nat → Bool)
    (s : NDState) (c : List Nat) :
    stuckND dec isBlank (feedND dec isBlank s c).2 := by
  by_cases hab : s.aborted
  · simp only [feedND, hab, if_true]
    exact Or.inl hab
  · simp only [feedND, hab, if_false, Bool.false_eq_true]
    exact drainND_post_stuck dec isBlank (s.buffer ++ c)

theorem feedND_nil_of_stuck (dec : List Nat → Option α)
    (isBlank : List Nat → Bool) (s : NDState)
    (h : stuckND dec isBlank s) : feedND dec isBlank s [] = ([], s) := by
  rcases h with h | h
  · simp [feedND, h]
  · by_cases hab : s.aborted
    · simp [feedND, hab]
    · simp only [feedND, hab, if_false, Bool.false_eq_true, List.append_nil]
      exact h

theorem feedAllND_eq_flatten (dec : List Nat → Option α)
    (isBlank : List Nat → Bool) (chunks : List (List Nat)) :
    ∀ s : NDState, stuckND dec isBlank s →
      feedAllND dec isBlank s chunks = feedND dec isBlank s chunks.flatten := by
  induction chunks with
  | nil =>
    intro s hs
    simp only [feedAllND, List.flatten_nil]
    exact (feedND_nil_of_stuck dec isBlank s hs).symm
  | cons c cs ih =>
    intro s hs
    simp only [feedAllND, List.flatten_cons]
    rw [ih (feedND dec isBlank s c).2 (feedND_stuck dec isBlank s c),
      feedND_append]

theorem initND_stuck (dec : List Nat → Option α)
    (isBlank : List Nat → Bool) : stuckND dec isBlank initND :=
  Or.inr (drainND_step_none dec isBlank [] (by rfl))

/-- Under the NDJSON framing, any chunking of a byte sequence yields the
same frames as feeding it whole (including the trailing flush, which sees
the same final buffer either way). -/
theorem readFramesND_chunks (dec : List Nat → Option α)
    (isBlank : List Nat → Bool) (chunks : List (List Nat)) :
    readFramesND dec isBlank chunks =
      readFramesND dec isBlank [chunks.flatten] := by
  unfold readFramesND
  rw [feedAllND_eq_flatten dec isBlank chunks initND (initND_stuck dec isBlank)]
  simp only [feedAllND, List.append_nil]

end WcCodex

namespace WcCodex

/-- C4: For every byte sequence and every partition of it into chunks at
arbitrary byte boundaries (including boundaries splitting a 4-byte length
header or a payload, or chunks holding several frames), feeding the chunks
to readFrames yields exactly the same ordered frame sequence as feeding
the whole sequence in one chunk, under both the newline-delimited and the
length-prefixed framing — in particular for concatenations of encoded
frames. -/
theorem readFrames_chunk_invariance {α : Type} (dec : List Nat → Option α)
    (isBlank : List Nat → Bool) (chunks : List (List Nat)) (bytes : List Nat)
    (h : chunks.flatten = bytes) :
    readFramesLP dec chunks = readFramesLP dec [bytes] ∧
    readFramesND dec isBlank chunks = readFramesND dec isBlank [bytes] := by
  subst h
  exact ⟨readFramesLP_chunks dec chunks,
    readFramesND_chunks dec isBlank chunks⟩

/-- Witness for `readFrames_chunk_invariance`: a chunking that splits the
length header and the payload. -/
theorem readFrames_chunk_invariance_witness :
    readFramesLP some [[0, 0], [0, 2], [65], [10]] =
      readFramesLP some [[0, 0, 0, 2, 65, 10]] ∧
    readFramesND some (fun l => l.isEmpty) [[0, 0], [0, 2], [65], [10]] =
      readFramesND some (fun l => l.isEmpty) [[0, 0, 0, 2, 65, 10]] :=
  readFrames_chunk_invariance some (fun l => l.isEmpty) _ _ (by decide)

end WcCodex

namespace WcCodex

/-! ## Confirmation Queue (`confirmation-queue.ts`)

The queue owns `pending : Map<string, PendingConfirmation>`.  Each call to
`register` creates one promise; promises are identified by a token (a
fresh natural number).  `settled` is the trace of promise settlements, in
order: a token appears there once for each `resolve`/`reject` call made on
its promise.  `timers` is the set of armed `setTimeout` handles, each
bound to the registration token whose closure it runs. -/

/-- Default approval timeout: `DEFAULT_APPROVAL_TIMEOUT_MS` (5 minutes). -/
def defaultApprovalTimeoutMs : Nat := 5 * 60 * 1000

/-- How one registration's promise got settled. -/
inductive Settlement where
  | fulfilled (decision : Decision) (explanation : Option String)
  | rejected (reason : String)
deriving DecidableEq

/-- Association-list lookup (JS `Map.get`). -/
def alGet (m : List (String × Nat)) (key : String) : Option Nat :=
  match m with
  | [] => none
  | (k, v) :: rest => if k = key then some v else alGet rest key

/-- JS `Map.set`: replace in place when the key exists, else append. -/
def alSet (m : List (String × Nat)) (key : String) (v : Nat) :
    List (String × Nat) :=
  match m with
  | [] => [(key, v)]
  | (k, w) :: rest =>
    if k = key then (k, v) :: rest else (k, w) :: alSet rest key v

/-- JS `Map.delete`. -/
def alErase (m : List (String × Nat)) (key : String) : List (String × Nat) :=
  m.filter (fun p => p.1 ≠ key)

structure QState where
  pending : List (String × Nat)
  timers : List (Nat × String)
  settled : List (Nat × Settlement)
  nextTok : Nat
deriving DecidableEq

def emptyQ : QState := ⟨[], [], [], 0⟩

/-- `ConfirmationQueue.register(commandId)`: if the id is already pending,
its timer is cleared (warning logged) and the map entry is overwritten;
the new registration arms a fresh timer.  Returns the new promise's
token. -/
def qRegister (s : QState) (commandId : String) : Nat × QState :=
  let s1 :=
    match alGet s.pending commandId with
    | some tOld => { s with timers := s.timers.filter (fun p => p.1 ≠ tOld) }
    | none => s
  (s1.nextTok,
    { s1 with
      pending := alSet s1.pending commandId s1.nextTok
      timers := s1.timers ++ [(s1.nextTok, commandId)]
      nextTok := s1.nextTok + 1 })

/-- `ConfirmationQueue.resolve(commandId, decision, explanation?)`:
fulfils the pending registration if present (clearing its timer, settling
its promise, removing it) and returns true; else returns false. -/
def qResolve (s : QState) (commandId : String) (decision : Decision)
    (explanation : Option String) : Bool × QState :=
  match alGet s.pending commandId with
  | some t =>
    (true,
      { s with
        timers := s.timers.filter (fun p => p.1 ≠ t)
        settled := s.settled ++ [(t, .fulfilled decision explanation)]
        pending := alErase s.pending commandId })
  | none => (false, s)

/-- `ConfirmationQueue.reject(commandId, reason)`. -/
def qReject (s : QState) (commandId : String) (reason : String) :
    Bool × QState :=
  match alGet s.pending commandId with
  | some t =>
    (true,
      { s with
        timers := s.timers.filter (fun p => p.1 ≠ t)
        settled := s.settled ++ [(t, .rejected reason)]
        pending := alErase s.pending commandId })
  | none => (false, s)

/-- The `setTimeout` callback armed by `register` firing for token `tok`:
a cleared or spent timer never fires; the callback checks
`pending.has(commandId)` for its captured command id, and if still
pending deletes the entry and rejects its own promise with the timeout
reason. -/
def qTimerFire (s : QState) (tok : Nat) : QState :=
  match s.timers.lookup tok with
  | none => s
  | some commandId =>
    let s1 := { s with timers := s.timers.filter (fun p => p.1 ≠ tok) }
    if (alGet s1.pending commandId).isSome then
      { s1 with
        pending := alErase s1.pending commandId
        settled := s1.settled ++
          [(tok, .rejected ("Confirmation for command " ++ commandId ++
            " timed out."))] }
    else s1

/-- `ConfirmationQueue.clearAllForSession(prefixOrMatcher)` with a string
prefix: rejects and removes every pending entry whose command id starts
with the prefix. -/
def qClearAllForSession (s : QState) (pre : String) : QState :=
  s.pending.foldl
    (fun acc p =>
      if p.1.startsWith pre then
        { acc with
          timers := acc.timers.filter (fun q => q.1 ≠ p.2)
          settled := acc.settled ++
            [(p.2, .rejected ("Session ended while awaiting confirmation for "
              ++ p.1 ++ "."))]
          pending := alErase acc.pending p.1 }
      else acc)
    s

/-- One observable queue operation (the timer event models wall-clock
expiry of one registration's deadline). -/
inductive QOp where
  | register (commandId : String)
  | resolve (commandId : String) (decision : Decision)
      (explanation : Option String)
  | reject (commandId : String) (reason : String)
  | timerFire (tok : Nat)
  | clearAll (pre : String)

def qStep (s : QState) : QOp → QState
  | .register cid => (qRegister s cid).2
  | .resolve cid d e => (qResolve s cid d e).2
  | .reject cid r => (qReject s cid r).2
  | .timerFire tok => qTimerFire s tok
  | .clearAll pre => qClearAllForSession s pre

def qRun (s : QState) : List QOp → QState
  | [] => s
  | op :: ops => qRun (qStep s op) ops

/-- Number of settlements recorded for one registration token. -/
def settleCount (s : QState) (tok : Nat) : Nat :=
  (s.settled.filter (fun p => p.1 = tok)).length

def pendingToks (s : QState) : List Nat := s.pending.map Prod.snd

def timerToks (s : QState) : List Nat := s.timers.map Prod.fst

/-- Token-freshness invariant maintained by the queue: every token ever
handed out is below `nextTok`. -/
def qWf (s : QState) : Prop :=
  (∀ t ∈ pendingToks s, t < s.nextTok) ∧
  (∀ t ∈ timerToks s, t < s.nextTok)

end WcCodex

namespace WcCodex

theorem filterSubsetSelf {β : Type} (l : List β) (p : β → Bool) :
    l.filter p ⊆ l :=
  (List.filter_sublist l).subset

theorem alGet_mem {m : List (String × Nat)} {k : String} {v : Nat}
    (h : alGet m k = some v) : v ∈ m.map Prod.snd := by
  induction m with
  | nil => simp [alGet] at h
  | cons p rest ih =>
    unfold alGet at h
    by_cases hk : p.1 = k
    · rw [if_pos hk] at h
      cases h
      simp
    · rw [if_neg hk] at h
      simp only [List.map_cons, List.mem_cons]
      exact Or.inr (ih h)

theorem alSet_toks {m : List (String × Nat)} {k : String} {v t : Nat}
    (h : t ∈ (alSet m k v).map Prod.snd) :
    t ∈ m.map Prod.snd ∨ t = v := by
  induction m with
  | nil =>
    simp [alSet] at h
    simp [h]
  | cons p rest ih =>
    unfold alSet at h
    by_cases hk : p.1 = k
    · rw [if_pos hk] at h
      simp only [List.map_cons, List.mem_cons] at h
      rcases h with h | h
      · simp [h]
      · simp [h]
    · rw [if_neg hk] at h
      simp only [List.map_cons, List.mem_cons] at h
      rcases h with h | h
      · simp [h]
      · rcases ih h with h2 | h2
        · simp [h2]
        · simp [h2]

theorem alErase_toks {m : List (String × Nat)} {k : String} {t : Nat}
    (h : t ∈ (alErase m k).map Prod.snd) : t ∈ m.map Prod.snd :=
  List.map_subset Prod.snd (filterSubsetSelf m _) h

theorem lookup_mem_timers {timers : List (Nat × String)} {tok : Nat}
    {cid : String} (h : timers.lookup tok = some cid) :
    tok ∈ timers.map Prod.fst := by
  induction timers with
  | nil => simp [List.lookup] at h
  | cons p rest ih =>
    unfold List.lookup at h
    cases hk : (tok == p.1) with
    | true =>
      have : tok = p.1 := by simpa using hk
      simp [this]
    | false =>
      rw [hk] at h
      simp only [List.map_cons, List.mem_cons]
      exact Or.inr (ih h)

/-- Core of the `clearAllForSession` fold: it only removes entries, only
settles tokens drawn from the iterated list, and leaves `nextTok`
alone. -/
theorem clearAll_fold_props (pre : String) (t : Nat) :
    ∀ (l : List (String × Nat)) (acc : QState),
      (∀ p ∈ l, p.2 ≠ t) →
      (let r := l.foldl
          (fun acc p =>
            if p.1.startsWith pre then
              { acc with
                timers := acc.timers.filter (fun q => q.1 ≠ p.2)
                settled := acc.settled ++
                  [(p.2, Settlement.rejected
                    ("Session ended while awaiting confirmation for "
                      ++ p.1 ++ "."))]
                pending := alErase acc.pending p.1 }
            else acc)
          acc
       settleCount r t = settleCount acc t ∧
       (∀ x ∈ pendingToks r, x ∈ pendingToks acc) ∧
       (∀ x ∈ timerToks r, x ∈ timerToks acc) ∧
       r.nextTok = acc.nextTok) := by
  intro l
  induction l with
  | nil =>
    intro acc _
    exact ⟨rfl, fun x hx => hx, fun x hx => hx, rfl⟩
  | cons p rest ih =>
    intro acc hl
    simp only [List.foldl_cons]
    by_cases hp : p.1.startsWith pre
    · rw [if_pos hp]
      have hne : p.2 ≠ t := hl p (by simp)
      obtain ⟨h1, h2, h3, h4⟩ := ih _ (fun q hq => hl q (by simp [hq]))
      refine ⟨?_, ?_, ?_, ?_⟩
      · rw [h1]
        simp [settleCount, List.filter_append, hne]
      · intro x hx
        exact alErase_toks (h2 x hx)
      · intro x hx
        exact List.map_subset Prod.fst (filterSubsetSelf _ _) (h3 x hx)
      · rw [h4]
    · rw [if_neg hp]
      exact ih acc (fun q hq => hl q (by simp [hq]))

end WcCodex

namespace WcCodex

/-- A token that is no longer pending and whose timer is gone is never
settled by any later queue operation, and stays gone. -/
theorem qStep_no_settle (s : QState) (t : Nat) (op : QOp)
    (hwf : qWf s) (hlt : t < s.nextTok)
    (hp : t ∉ pendingToks s) (ht : t ∉ timerToks s) :
    qWf (qStep s op) ∧ t < (qStep s op).nextTok ∧
    t ∉ pendingToks (qStep s op) ∧ t ∉ timerToks (qStep s op) ∧
    settleCount (qStep s op) t = settleCount s t := by
  obtain ⟨hwfp, hwft⟩ := hwf
  cases op with
  | register cid =>
    simp only [qStep, qRegister]
    cases hg : alGet s.pending cid with
    | none =>
      simp only
      refine ⟨⟨?_, ?_⟩, ?_, ?_, ?_, rfl⟩
      · intro x hx
        rcases alSet_toks hx with h | h
        · exact Nat.lt_succ_of_lt (hwfp x h)
        · simp [h]
      · intro x hx
        simp only [timerToks, List.map_append] at hx
        rcases List.mem_append.mp hx with h | h
        · exact Nat.lt_succ_of_lt (hwft x h)
        · simp at h
          simp [h]
      · omega
      · intro hx
        rcases alSet_toks hx with h | h
        · exact hp h
        · omega
      · intro hx
        simp only [timerToks, List.map_append] at hx
        rcases List.mem_append.mp hx with h | h
        · exact ht h
        · simp at h
          omega
    | some tOld =>
      simp only
      refine ⟨⟨?_, ?_⟩, ?_, ?_, ?_, rfl⟩
      · intro x hx
        rcases alSet_toks hx with h | h
        · exact Nat.lt_succ_of_lt (hwfp x h)
        · simp [h]
      · intro x hx
        simp only [timerToks, List.map_append] at hx
        rcases List.mem_append.mp hx with h | h
        · exact Nat.lt_succ_of_lt
            (hwft x (List.map_subset Prod.fst (filterSubsetSelf _ _) h))
        · simp at h
          simp [h]
      · omega
      · intro hx
        rcases alSet_toks hx with h | h
        · exact hp h
        · omega
      · intro hx
        simp only [timerToks, List.map_append] at hx
        rcases List.mem_append.mp hx with h | h
        · exact ht (List.map_subset Prod.fst (filterSubsetSelf _ _) h)
        · simp at h
          omega
  | resolve cid d e =>
    simp only [qStep, qResolve]
    cases hg : alGet s.pending cid with
    | none => exact ⟨⟨hwfp, hwft⟩, hlt, hp, ht, rfl⟩
    | some t2 =>
      have ht2 : t2 ≠ t := fun h => hp (h ▸ alGet_mem hg)
      simp only
      refine ⟨⟨?_, ?_⟩, hlt, ?_, ?_, ?_⟩
      · intro x hx
        exact hwfp x (alErase_toks hx)
      · intro x hx
        exact hwft x (List.map_subset Prod.fst (filterSubsetSelf _ _) hx)
      · intro hx
        exact hp (alErase_toks hx)
      · intro hx
        exact ht (List.map_subset Prod.fst (filterSubsetSelf _ _) hx)
      · simp [settleCount, List.filter_append, ht2]
  | reject cid r =>
    simp only [qStep, qReject]
    cases hg : alGet s.pending cid with
    | none => exact ⟨⟨hwfp, hwft⟩, hlt, hp, ht, rfl⟩
    | some t2 =>
      have ht2 : t2 ≠ t := fun h => hp (h ▸ alGet_mem hg)
      simp only
      refine ⟨⟨?_, ?_⟩, hlt, ?_, ?_, ?_⟩
      · intro x hx
        exact hwfp x (alErase_toks hx)
      · intro x hx
        exact hwft x (List.map_subset Prod.fst (filterSubsetSelf _ _) hx)
      · intro hx
        exact hp (alErase_toks hx)
      · intro hx
        exact ht (List.map_subset Prod.fst (filterSubsetSelf _ _) hx)
      · simp [settleCount, List.filter_append, ht2]
  | timerFire tok =>
    simp only [qStep, qTimerFire]
    cases hg : s.timers.lookup tok with
    | none => exact ⟨⟨hwfp, hwft⟩, hlt, hp, ht, rfl⟩
    | some cid =>
      have htok : tok ≠ t := fun h => ht (h ▸ lookup_mem_timers hg)
      simp only
      by_cases hpend : (alGet (s.pending) cid).isSome
      · rw [if_pos hpend]
        refine ⟨⟨?_, ?_⟩, hlt, ?_, ?_, ?_⟩
        · intro x hx
          exact hwfp x (alErase_toks hx)
        · intro x hx
          exact hwft x (List.map_subset Prod.fst (filterSubsetSelf _ _) hx)
        · intro hx
          exact hp (alErase_toks hx)
        · intro hx
          exact ht (List.map_subset Prod.fst (filterSubsetSelf _ _) hx)
        · simp [settleCount, List.filter_append, htok]
      · rw [if_neg hpend]
        refine ⟨⟨hwfp, ?_⟩, hlt, hp, ?_, rfl⟩
        · intro x hx
          exact hwft x (List.map_subset Prod.fst (filterSubsetSelf _ _) hx)
        · intro hx
          exact ht (List.map_subset Prod.fst (filterSubsetSelf _ _) hx)
  | clearAll pre =>
    simp only [qStep, qClearAllForSession]
    have hl : ∀ p ∈ s.pending, p.2 ≠ t := by
      intro p hq hcontra
      exact hp (by
        simp only [pendingToks, List.mem_map]
        exact ⟨p, hq, hcontra⟩)
    obtain ⟨h1, h2, h3, h4⟩ := clearAll_fold_props pre t s.pending s hl
    refine ⟨⟨?_, ?_⟩, ?_, ?_, ?_, h1⟩
    · intro x hx
      rw [h4]
      exact hwfp x (h2 x hx)
    · intro x hx
      rw [h4]
      exact hwft x (h3 x hx)
    · rw [h4]
      exact hlt
    · intro hx
      exact hp (h2 t hx)
    · intro hx
      exact ht (h3 t hx)

theorem qRun_no_settle (t : Nat) :
    ∀ (ops : List QOp) (s : QState), qWf s → t < s.nextTok →
      t ∉ pendingToks s → t ∉ timerToks s →
      settleCount (qRun s ops) t = settleCount s t := by
  intro ops
  induction ops with
  | nil => intro s _ _ _ _; rfl
  | cons op rest ih =>
    intro s hwf hlt hp ht
    obtain ⟨hwf2, hlt2, hp2, ht2, hcount⟩ := qStep_no_settle s t op hwf hlt hp ht
    simp only [qRun]
    rw [ih (qStep s op) hwf2 hlt2 hp2 ht2, hcount]
end WcCodex

namespace WcCodex

theorem alGet_erase_self (m : List (String × Nat)) (k : String) :
    alGet (alErase m k) k = none := by
  induction m with
  | nil => rfl
  | cons p rest ih =>
    simp only [alErase, List.filter_cons]
    by_cases hk : p.1 = k
    · rw [if_neg (by simp [hk])]
      exact ih
    · rw [if_pos (by simp [hk])]
      unfold alGet
      rw [if_neg hk]
      exact ih

theorem mem_alErase {m : List (String × Nat)} {k : String}
    {q : String × Nat} (h : q ∈ alErase m k) : q ∈ m ∧ q.1 ≠ k := by
  have := List.mem_filter.mp h
  refine ⟨this.1, ?_⟩
  have h2 := this.2
  simpa using h2

theorem not_mem_fst_filter_ne (l : List (Nat × String)) (t : Nat) :
    t ∉ (l.filter (fun p => p.1 ≠ t)).map Prod.fst := by
  intro hx
  obtain ⟨q, hq, hq2⟩ := List.mem_map.mp hx
  have h2 := (List.mem_filter.mp hq).2
  rw [hq2] at h2
  simp at h2

/-- Every queue operation preserves token freshness. -/
theorem qStep_wf (s : QState) (op : QOp) (hwf : qWf s) :
    qWf (qStep s op) := by
  obtain ⟨hwfp, hwft⟩ := hwf
  cases op with
  | register cid =>
    simp only [qStep, qRegister]
    cases hg : alGet s.pending cid with
    | none =>
      refine ⟨?_, ?_⟩
      · intro x hx
        rcases alSet_toks hx with h | h
        · exact Nat.lt_succ_of_lt (hwfp x h)
        · simp [h]
      · intro x hx
        simp only [timerToks, List.map_append] at hx
        rcases List.mem_append.mp hx with h | h
        · exact Nat.lt_succ_of_lt (hwft x h)
        · simp at h
          simp [h]
    | some tOld =>
      refine ⟨?_, ?_⟩
      · intro x hx
        rcases alSet_toks hx with h | h
        · exact Nat.lt_succ_of_lt (hwfp x h)
        · simp [h]
      · intro x hx
        simp only [timerToks, List.map_append] at hx
        rcases List.mem_append.mp hx with h | h
        · exact Nat.lt_succ_of_lt
            (hwft x (List.map_subset Prod.fst (filterSubsetSelf _ _) h))
        · simp at h
          simp [h]
  | resolve cid d e =>
    simp only [qStep, qResolve]
    cases hg : alGet s.pending cid with
    | none => exact ⟨hwfp, hwft⟩
    | some t2 =>
      refine ⟨?_, ?_⟩
      · intro x hx
        exact hwfp x (alErase_toks hx)
      · intro x hx
        exact hwft x (List.map_subset Prod.fst (filterSubsetSelf _ _) hx)
  | reject cid r =>
    simp only [qStep, qReject]
    cases hg : alGet s.pending cid with
    | none => exact ⟨hwfp, hwft⟩
    | some t2 =>
      refine ⟨?_, ?_⟩
      · intro x hx
        exact hwfp x (alErase_toks hx)
      · intro x hx
        exact hwft x (List.map_subset Prod.fst (filterSubsetSelf _ _) hx)
  | timerFire tok =>
    simp only [qStep, qTimerFire]
    cases hg : s.timers.lookup tok with
    | none => exact ⟨hwfp, hwft⟩
    | some cid =>
      simp only
      by_cases hpend : (alGet (s.pending) cid).isSome
      · rw [if_pos hpend]
        refine ⟨?_, ?_⟩
        · intro x hx
          exact hwfp x (alErase_toks hx)
        · intro x hx
          exact hwft x (List.map_subset Prod.fst (filterSubsetSelf _ _) hx)
      · rw [if_neg hpend]
        refine ⟨hwfp, ?_⟩
        intro x hx
        exact hwft x (List.map_subset Prod.fst (filterSubsetSelf _ _) hx)
  | clearAll pre =>
    simp only [qStep, qClearAllForSession]
    have hl : ∀ p ∈ s.pending, p.2 ≠ s.nextTok := by
      intro p hq hcontra
      have : p.2 ∈ pendingToks s := by
        simp only [pendingToks, List.mem_map]
        exact ⟨p, hq, rfl⟩
      have := hwfp p.2 this
      omega
    obtain ⟨h1, h2, h3, h4⟩ :=
      clearAll_fold_props pre s.nextTok s.pending s hl
    refine ⟨?_, ?_⟩
    · intro x hx
      rw [h4]
      exact hwfp x (h2 x hx)
    · intro x hx
      rw [h4]
      exact hwft x (h3 x hx)

end WcCodex

namespace WcCodex

/-! ## Agent Wrapper (`agent-wrapper.ts`) -/

/-- `commandPromptToFrame` (serializer.ts): builds the `command_prompt`
frame; the wrapper calls it without an explanation. -/
def commandPromptToFrame (commandId : String) (command : List String)
    (applyPatch : Option Json) (explanation : Option String) :
    CommandPromptFrame :=
  ⟨none, commandId, command, applyPatch, explanation⟩

/-- The engine-facing review outcome (`CommandConfirmation`). -/
inductive Review where
  | approved
  | denied
deriving DecidableEq

structure CommandConfirmation where
  review : Review
  applyPatch : Option Json
  customDenyMessage : Option String

/-- `AgentWrapper.getCommandConfirmation`, as a function of how the
registered promise settles: first the `command_prompt` frame is emitted;
on fulfilment the decision maps to approved/denied (the patch is passed
through only on allow); on rejection (timeout or cancellation) an `error`
frame with code `APPROVAL_TIMEOUT` is emitted before the denied review is
returned. -/
def getCommandConfirmationModel (commandId : String) (command : List String)
    (applyPatch : Option Json) (st : Settlement) :
    List ServerFrame × CommandConfirmation :=
  let prompt := ServerFrame.commandPrompt
    (commandPromptToFrame commandId command applyPatch none)
  match st with
  | .fulfilled d expl =>
    ([prompt],
      ⟨if d = .allow then .approved else .denied,
        if d = .allow then applyPatch else none, expl⟩)
  | .rejected reason =>
    ([prompt,
      .error ⟨none, "Approval timed out or failed for command " ++ commandId,
        some "APPROVAL_TIMEOUT", none, none⟩],
      ⟨.denied, none,
        some ("Approval timed out or was cancelled: " ++ reason)⟩)

/-- C6: For any registered command id, calling resolve and then reject, or
reject and then resolve, settles the registration exactly once: the first
call returns true and settles the promise, the second finds no pending
entry, performs no settlement and returns false; neither ordering
crashes. -/
theorem confirmation_at_most_one_resolution (s : QState) (cid : String)
    (t : Nat) (d : Decision) (e : Option String) (r : String)
    (h : alGet s.pending cid = some t) :
    ((qResolve s cid d e).1 = true ∧
      alGet (qResolve s cid d e).2.pending cid = none ∧
      (qReject (qResolve s cid d e).2 cid r).1 = false ∧
      (qReject (qResolve s cid d e).2 cid r).2.settled =
        s.settled ++ [(t, .fulfilled d e)]) ∧
    ((qReject s cid r).1 = true ∧
      alGet (qReject s cid r).2.pending cid = none ∧
      (qResolve (qReject s cid r).2 cid d e).1 = false ∧
      (qResolve (qReject s cid r).2 cid d e).2.settled =
        s.settled ++ [(t, .rejected r)]) := by
  constructor
  · simp [qResolve, qReject, h, alGet_erase_self]
  · simp [qReject, qResolve, h, alGet_erase_self]

/-- Witness for `confirmation_at_most_one_resolution` on a freshly
registered command id. -/
theorem confirmation_at_most_one_resolution_witness :
    ((qResolve (qRegister emptyQ "c").2 "c" .allow none).1 = true ∧
      alGet (qResolve (qRegister emptyQ "c").2 "c" .allow none).2.pending
        "c" = none ∧
      (qReject (qResolve (qRegister emptyQ "c").2 "c" .allow none).2 "c"
        "late").1 = false ∧
      (qReject (qResolve (qRegister emptyQ "c").2 "c" .allow none).2 "c"
        "late").2.settled =
        (qRegister emptyQ "c").2.settled ++ [(0, .fulfilled .allow none)]) ∧
    ((qReject (qRegister emptyQ "c").2 "c" "late").1 = true ∧
      alGet (qReject (qRegister emptyQ "c").2 "c" "late").2.pending "c" =
        none ∧
      (qResolve (qReject (qRegister emptyQ "c").2 "c" "late").2 "c" .allow
        none).1 = false ∧
      (qResolve (qReject (qRegister emptyQ "c").2 "c" "late").2 "c" .allow
        none).2.settled =
        (qRegister emptyQ "c").2.settled ++ [(0, .rejected "late")]) :=
  confirmation_at_most_one_resolution (qRegister emptyQ "c").2 "c" 0 .allow
    none "late" (by decide)

end WcCodex

namespace WcCodex

/-- C5: A registered command id that receives neither resolve nor reject
before its deadline (default 5 minutes) settles exactly once to a
deny-equivalent outcome (its promise is rejected with the timeout reason)
and is removed from the pending set; on that timeout path the wrapper
emits an error frame carrying the APPROVAL_TIMEOUT code before returning
a denied review to the engine. -/
theorem confirmation_timeout_default_deny (s : QState) (cid : String)
    (t : Nat) (command : List String) (applyPatch : Option Json)
    (reason : String) (hwf : qWf s) (hpend : alGet s.pending cid = some t)
    (htimer : s.timers.lookup t = some cid) (hcount : settleCount s t = 0)
    (huniq : ∀ p ∈ s.pending, p.2 = t → p.1 = cid) :
    defaultApprovalTimeoutMs = 5 * 60 * 1000 ∧
    alGet (qTimerFire s t).pending cid = none ∧
    (qTimerFire s t).settled = s.settled ++
      [(t, .rejected ("Confirmation for command " ++ cid ++
        " timed out."))] ∧
    (∀ ops, settleCount (qRun (qTimerFire s t) ops) t = 1) ∧
    (getCommandConfirmationModel cid command applyPatch
        (.rejected reason)).1 =
      [.commandPrompt ⟨none, cid, command, applyPatch, none⟩,
        .error ⟨none, "Approval timed out or failed for command " ++ cid,
          some "APPROVAL_TIMEOUT", none, none⟩] ∧
    (getCommandConfirmationModel cid command applyPatch
        (.rejected reason)).2.review = .denied := by
  have hfire : qTimerFire s t =
      { s with
        timers := s.timers.filter (fun p => p.1 ≠ t)
        pending := alErase s.pending cid
        settled := s.settled ++
          [(t, .rejected ("Confirmation for command " ++ cid ++
            " timed out."))] } := by
    simp only [qTimerFire, htimer]
    rw [if_pos (by simp [hpend])]
  have hlt : t < s.nextTok := hwf.2 t (lookup_mem_timers htimer)
  have hcount1 : settleCount (qTimerFire s t) t = 1 := by
    rw [hfire]
    simp [settleCount, List.filter_append]
    simpa [settleCount] using hcount
  refine ⟨rfl, ?_, ?_, ?_, rfl, rfl⟩
  · rw [hfire]
    exact alGet_erase_self s.pending cid
  · rw [hfire]
  · intro ops
    have hwf2 : qWf (qTimerFire s t) := qStep_wf s (.timerFire t) hwf
    have hp2 : t ∉ pendingToks (qTimerFire s t) := by
      rw [hfire]
      intro hx
      obtain ⟨q, hq, hq2⟩ := List.mem_map.mp hx
      obtain ⟨hqm, hqne⟩ := mem_alErase hq
      exact hqne (huniq q hqm hq2)
    have ht2 : t ∉ timerToks (qTimerFire s t) := by
      rw [hfire]
      exact not_mem_fst_filter_ne s.timers t
    have hlt2 : t < (qTimerFire s t).nextTok := by
      rw [hfire]
      exact hlt
    have := qRun_no_settle t ops (qTimerFire s t) hwf2 hlt2 hp2 ht2
    rw [this, hcount1]

/-- Witness for `confirmation_timeout_default_deny` on a freshly
registered command id whose timer fires, followed by further queue
traffic. -/
theorem confirmation_timeout_default_deny_witness :
    defaultApprovalTimeoutMs = 5 * 60 * 1000 ∧
    alGet (qTimerFire (qRegister emptyQ "c").2 0).pending "c" = none ∧
    (qTimerFire (qRegister emptyQ "c").2 0).settled =
      (qRegister emptyQ "c").2.settled ++
        [(0, .rejected ("Confirmation for command " ++ "c" ++
          " timed out."))] ∧
    settleCount (qRun (qTimerFire (qRegister emptyQ "c").2 0)
      [.resolve "c" .allow none, .register "c", .clearAll "c"]) 0 = 1 ∧
    (getCommandConfirmationModel "c" ["rm", "-rf", "/"] none
        (.rejected "Confirmation for command c timed out.")).1 =
      [.commandPrompt ⟨none, "c", ["rm", "-rf", "/"], none, none⟩,
        .error ⟨none, "Approval timed out or failed for command " ++ "c",
          some "APPROVAL_TIMEOUT", none, none⟩] ∧
    (getCommandConfirmationModel "c" ["rm", "-rf", "/"] none
        (.rejected "Confirmation for command c timed out.")).2.review =
      .denied := by
  have h := confirmation_timeout_default_deny (qRegister emptyQ "c").2 "c" 0
    ["rm", "-rf", "/"] none "Confirmation for command c timed out."
    (by constructor <;> decide) (by decide) (by decide) (by decide)
    (by decide)
  exact ⟨h.1, h.2.1, h.2.2.1, h.2.2.2.1 _, h.2.2.2.2.1, h.2.2.2.2.2⟩

end WcCodex

namespace WcCodex

theorem mem_alSet_of_nodup {m : List (String × Nat)} {k : String} {v : Nat}
    (hnodup : (m.map Prod.fst).Nodup) :
    ∀ q ∈ alSet m k v, (q ∈ m ∧ q.1 ≠ k) ∨ q = (k, v) := by
  induction m with
  | nil =>
    intro q hq
    simp [alSet] at hq
    simp [hq]
  | cons p rest ih =>
    intro q hq
    simp only [List.map_cons, List.nodup_cons] at hnodup
    unfold alSet at hq
    by_cases hk : p.1 = k
    · rw [if_pos hk] at hq
      simp only [List.mem_cons] at hq
      rcases hq with hq | hq
      · right
        rw [hq, hk]
      · left
        refine ⟨List.mem_cons_of_mem p hq, ?_⟩
        intro hcontra
        exact hnodup.1 (hk ▸ hcontra ▸ List.mem_map_of_mem Prod.fst hq)
    · rw [if_neg hk] at hq
      simp only [List.mem_cons] at hq
      rcases hq with hq | hq
      · left
        exact ⟨by simp [hq], by rw [hq]; exact hk⟩
      · rcases ih hnodup.2 q hq with ⟨h1, h2⟩ | h1
        · exact Or.inl ⟨List.mem_cons_of_mem p h1, h2⟩
        · exact Or.inr h1

/-- C10: If register is called again for a command id that is still
pending, the first registration's promise is orphaned: its timeout timer
is cleared and its map entry replaced by the new registration, and no
later queue operation ever settles it (neither its resolve nor its reject
is invoked). -/
theorem register_overwrite_orphans_first (s : QState) (cid : String)
    (t : Nat) (hwf : qWf s) (h : alGet s.pending cid = some t)
    (hcount : settleCount s t = 0)
    (hnodup : (s.pending.map Prod.fst).Nodup)
    (huniq : ∀ p ∈ s.pending, p.2 = t → p.1 = cid) :
    t ∉ timerToks (qRegister s cid).2 ∧
    alGet (qRegister s cid).2.pending cid = some s.nextTok ∧
    ∀ ops, settleCount (qRun (qRegister s cid).2 ops) t = 0 := by
  have hlt : t < s.nextTok := hwf.1 t (alGet_mem h)
  have halset : ∀ (m : List (String × Nat)),
      alGet (alSet m cid s.nextTok) cid = some s.nextTok := by
    intro m
    induction m with
    | nil => simp [alSet, alGet]
    | cons p rest ih =>
      unfold alSet
      by_cases hk : p.1 = cid
      · rw [if_pos hk]
        unfold alGet
        rw [if_pos hk]
      · rw [if_neg hk]
        unfold alGet
        rw [if_neg hk]
        exact ih
  have hreg : (qRegister s cid).2 =
      { s with
        pending := alSet s.pending cid s.nextTok
        timers := s.timers.filter (fun p => p.1 ≠ t) ++ [(s.nextTok, cid)]
        nextTok := s.nextTok + 1 } := by
    simp only [qRegister, h]
  have ht2 : t ∉ timerToks (qRegister s cid).2 := by
    rw [hreg]
    intro hx
    simp only [timerToks, List.map_append] at hx
    rcases List.mem_append.mp hx with hx | hx
    · exact not_mem_fst_filter_ne s.timers t hx
    · simp at hx
      omega
  have hp2 : t ∉ pendingToks (qRegister s cid).2 := by
    rw [hreg]
    intro hx
    obtain ⟨q, hq, hq2⟩ := List.mem_map.mp hx
    rcases mem_alSet_of_nodup hnodup q hq with ⟨hqm, hqne⟩ | hqe
    · exact hqne (huniq q hqm hq2)
    · rw [hqe] at hq2
      simp at hq2
      omega
  refine ⟨ht2, ?_, ?_⟩
  · rw [hreg]
    exact halset s.pending
  · intro ops
    have hwf2 : qWf (qRegister s cid).2 := qStep_wf s (.register cid) hwf
    have hlt2 : t < (qRegister s cid).2.nextTok := by
      rw [hreg]
      simp only
      omega
    have hrun := qRun_no_settle t ops (qRegister s cid).2 hwf2 hlt2 hp2 ht2
    rw [hrun, hreg]
    simpa [settleCount] using hcount

/-- Witness for `register_overwrite_orphans_first`: register "c" twice,
then resolve, reject, time out and clear — the first promise (token 0) is
never settled. -/
theorem register_overwrite_orphans_first_witness :
    0 ∉ timerToks (qRegister (qRegister emptyQ "c").2 "c").2 ∧
    alGet (qRegister (qRegister emptyQ "c").2 "c").2.pending "c" =
      some (qRegister emptyQ "c").2.nextTok ∧
    settleCount (qRun (qRegister (qRegister emptyQ "c").2 "c").2
      [.resolve "c" .deny none, .register "c", .timerFire 1,
        .reject "c" "bye", .clearAll ""]) 0 = 0 := by
  have h := register_overwrite_orphans_first (qRegister emptyQ "c").2 "c" 0
    (by constructor <;> decide) (by decide) (by decide) (by decide)
    (by decide)
  exact ⟨h.1, h.2.1, h.2.2 _⟩

end WcCodex

namespace WcCodex

/-- Wrapper run-cancellation state: `runActive` models
`currentRunAbortController !== null`; `signalAborted` models the current
run's abort signal, which is monotone once set. -/
structure WrapperState where
  runActive : Bool
  signalAborted : Bool
deriving DecidableEq

/-- `AgentWrapper.cancelCurrentRun(reason)`: when a controller is present
it is aborted and nulled and a status frame reporting the cancellation is
emitted; otherwise nothing happens. -/
def cancelCurrentRun (w : WrapperState) (reason : String) :
    List ServerFrame × WrapperState :=
  if w.runActive then
    ([.status ⟨none, "Agent run cancelled: " ++ reason, none⟩],
      ⟨false, true⟩)
  else ([], w)

/-- `AgentWrapper.handleCancel(frame)`: cancels the current run, then
calls `confirmationQueue.reject` on the command id
`` `${frame.sessionId}-cmd-${randomUUID()}` `` — `freshUuid` stands for
that freshly generated `randomUUID()` value. -/
def handleCancel (w : WrapperState) (q : QState) (sessionId : String)
    (freshUuid : String) : List ServerFrame × WrapperState × QState :=
  let r1 := cancelCurrentRun w ("client_cancel_frame_session_" ++ sessionId)
  let r2 := qReject q (sessionId ++ "-cmd-" ++ freshUuid)
    "Client requested cancel for session"
  (r1.1, r1.2, r2.2)

/-- C2 (failing input): with one confirmation pending for session "s1"
(command id "s1-cmd-a") and a run in flight, `handleCancel` for "s1"
aborts the run but leaves the pending confirmation untouched: the id it
rejects carries a freshly generated uuid ("b") and matches nothing, so
nothing is rejected or removed — contradicting the claim that every
pending entry associated with the session is rejected and removed. -/
theorem handleCancel_leaves_pending :
    (handleCancel ⟨true, false⟩ ⟨[("s1-cmd-a", 0)], [(0, "s1-cmd-a")], [], 1⟩
        "s1" "b").2.2.pending = [("s1-cmd-a", 0)] ∧
    (handleCancel ⟨true, false⟩ ⟨[("s1-cmd-a", 0)], [(0, "s1-cmd-a")], [], 1⟩
        "s1" "b").2.2.settled = [] ∧
    (handleCancel ⟨true, false⟩ ⟨[("s1-cmd-a", 0)], [(0, "s1-cmd-a")], [], 1⟩
        "s1" "b").2.1.signalAborted = true := by
  decide

/-! ## Engine callbacks of a run (C8) -/

/-- `responseItemToItemFrame` (serializer.ts); `now` stands for
`Date.now()` in the generated frame id. -/
def responseItemToItemFrame (responseItem : Json)
    (sessionId : Option String) (now : Nat) : ItemFrame :=
  ⟨sessionId.map (fun sid => sid ++ "-" ++ toString now), some responseItem⟩

/-- The engine-driven callback events of one run. -/
inductive EngineEvent where
  | item (responseItem : Json) (now : Nat)
  | loading (b : Bool)
  | lastResponseId (rid : String)

/-- The callbacks supplied to `agentLoop.run` (`onItem`, `onLoading`,
`onLastResponseId`): each first checks `abortSignal.aborted` and drops
the event when set. -/
def onEngineEvent (signalAborted : Bool) (sessionId : String)
    (e : EngineEvent) : List ServerFrame :=
  if signalAborted then []
  else
    match e with
    | .item it now =>
      [.item (responseItemToItemFrame it (some sessionId) now)]
    | .loading b =>
      [.status ⟨none,
        if b then "Agent thinking..." else "Agent idle...", none⟩]
    | .lastResponseId _ => []

def processEngineEvents (signalAborted : Bool) (sessionId : String)
    (events : List EngineEvent) : List ServerFrame :=
  (events.map (onEngineEvent signalAborted sessionId)).flatten

/-- C8: After a run's abort signal is set by cancelCurrentRun, no item
frame for the aborted run is ever emitted — every subsequent engine
callback for that run is dropped — and a status frame reporting the
cancellation is emitted. -/
theorem cancel_drops_aborted_run_items (w : WrapperState) (reason : String)
    (sessionId : String) (h : w.runActive = true) :
    (cancelCurrentRun w reason).1 =
      [.status ⟨none, "Agent run cancelled: " ++ reason, none⟩] ∧
    (cancelCurrentRun w reason).2.signalAborted = true ∧
    ∀ events, processEngineEvents
      (cancelCurrentRun w reason).2.signalAborted sessionId events = [] := by
  refine ⟨by simp [cancelCurrentRun, h], by simp [cancelCurrentRun, h], ?_⟩
  intro events
  have hab : (cancelCurrentRun w reason).2.signalAborted = true := by
    simp [cancelCurrentRun, h]
  rw [hab]
  induction events with
  | nil => rfl
  | cons e rest ih =>
    simp only [processEngineEvents, List.map_cons, List.flatten_cons] at ih ⊢
    simpa [onEngineEvent] using ih

/-- Witness for `cancel_drops_aborted_run_items` with a run in flight and
two post-abort engine events. -/
theorem cancel_drops_aborted_run_items_witness :
    (cancelCurrentRun ⟨true, false⟩ "client_cancel_frame_session_s1").1 =
      [.status ⟨none,
        "Agent run cancelled: client_cancel_frame_session_s1", none⟩] ∧
    (cancelCurrentRun ⟨true, false⟩
      "client_cancel_frame_session_s1").2.signalAborted = true ∧
    processEngineEvents
      (cancelCurrentRun ⟨true, false⟩
        "client_cancel_frame_session_s1").2.signalAborted "s1"
      [.item (.str "chunk") 7, .loading true] = [] := by
  have h := cancel_drops_aborted_run_items ⟨true, false⟩
    "client_cancel_frame_session_s1" "s1" (by decide)
  exact ⟨h.1, h.2.1, h.2.2 _⟩

end WcCodex

namespace WcCodex

/-! ## Stream handler (`handleAgentStream`, routes/agent.ts)

The inbound side of one connection is a list of events: decoded client
frames, a transport decode failure (after which `readFrames` writes an
error frame and ends the stream), and heartbeat timer ticks.  The effect
of `agentWrapper.handleUserMessage` is the engine-driven black box and is
a parameter `runUM` (frames written through `onFrame`, new wrapper/queue
state); `AgentLoop` construction is taken to succeed.  Writes after
`stream.end()` are not delivered (`writeFrame` refuses closed streams and
a write after end fails), so `sent` records the delivered frames. -/

inductive InEvent where
  | frame (f : ClientFrame)
  | decodeFailure (msg : String)
  | heartbeatTick (timestamp : String)

def errorFrameMsg (msg : String) (code : Option String) : ServerFrame :=
  .error ⟨none, msg, code, none, none⟩

def statusFrameMsg (msg : String) : ServerFrame :=
  .status ⟨none, msg, none⟩

def terminateFrameMsg (reason : String) : ServerFrame :=
  .terminate ⟨none, reason, none⟩

structure HandlerState where
  sent : List ServerFrame
  ended : Bool
  currentSessionId : Option String
  hasWrapper : Bool
  wrapper : WrapperState
  queue : QState
  uuidCounter : Nat

/-- One iteration of the dispatch loop of `handleAgentStream`. -/
def stepHandler (runUM : UserMessageFrame → WrapperState → QState →
    List ServerFrame × WrapperState × QState) (s : HandlerState)
    (e : InEvent) : HandlerState :=
  if s.ended then s
  else
    match e with
    | .heartbeatTick ts =>
      { s with sent := s.sent ++ [.heartbeat ⟨none, ts⟩] }
    | .decodeFailure msg =>
      { s with
        sent := s.sent ++
          [errorFrameMsg ("Frame decoding error: " ++ msg) none]
        ended := true }
    | .frame cf =>
      match cf with
      | .userMessage um =>
        match um.sessionId with
        | none =>
          { s with
            sent := s.sent ++ [errorFrameMsg
              "Session ID must be provided by the backend service in the first user_message frame."
              (some "SESSION_ID_REQUIRED")]
            ended := true }
        | some sid =>
          let s1 := { s with currentSessionId := some sid }
          let s2 :=
            if s1.hasWrapper then s1
            else
              { s1 with
                hasWrapper := true
                sent := s1.sent ++
                  [statusFrameMsg ("Session " ++ sid ++ " initialized.")] }
          let r := runUM um s2.wrapper s2.queue
          { s2 with
            sent := s2.sent ++ r.1
            wrapper := r.2.1
            queue := r.2.2 }
      | .approve af =>
        if s.hasWrapper then
          if some af.sessionId ≠ s.currentSessionId then
            { s with sent := s.sent ++ [errorFrameMsg
                "Session ID mismatch in approve frame."
                (some "SESSION_ID_MISMATCH")] }
          else
            { s with queue :=
                (qResolve s.queue af.commandId af.decision af.explanation).2 }
        else
          { s with sent := s.sent ++ [errorFrameMsg
              "Session not initialized. Send user_message first with sessionId."
              (some "SESSION_NOT_INIT")] }
      | .cancel cf =>
        if s.hasWrapper then
          if some cf.sessionId ≠ s.currentSessionId then
            { s with sent := s.sent ++ [errorFrameMsg
                "Session ID mismatch in cancel frame."
                (some "SESSION_ID_MISMATCH")] }
          else
            let r := handleCancel s.wrapper s.queue cf.sessionId
              ("uuid-" ++ toString s.uuidCounter)
            { s with
              sent := s.sent ++ r.1
              wrapper := r.2.1
              queue := r.2.2
              uuidCounter := s.uuidCounter + 1 }
        else
          { s with sent := s.sent ++ [errorFrameMsg
              "Session not initialized. Send user_message first with sessionId."
              (some "SESSION_NOT_INIT")] }

def initialHandlerState : HandlerState :=
  ⟨[], false, none, false, ⟨false, false⟩, emptyQ, 0⟩

def runLoop (runUM : UserMessageFrame → WrapperState → QState →
    List ServerFrame × WrapperState × QState) (s : HandlerState) :
    List InEvent → HandlerState
  | [] => s
  | e :: es => runLoop runUM (stepHandler runUM s e) es

/-- The `finally` block of `handleAgentStream`: if the stream was not
already closed by an earlier fatal branch, write one terminate frame and
end the stream. -/
def finallyBlock (s : HandlerState) : HandlerState :=
  if s.ended then s
  else
    { s with
      sent := s.sent ++ [terminateFrameMsg "Stream ended from server side."]
      ended := true }

def runHandler (runUM : UserMessageFrame → WrapperState → QState →
    List ServerFrame × WrapperState × QState) (events : List InEvent) :
    HandlerState :=
  finallyBlock (runLoop runUM initialHandlerState events)

def ServerFrame.isTerminate : ServerFrame → Bool
  | .terminate _ => true
  | _ => false

def countTerminates (l : List ServerFrame) : Nat :=
  (l.filter ServerFrame.isTerminate).length

/-- Events that make `handleAgentStream` end the stream early: a
transport decode failure, and a first user_message without session id. -/
def InEvent.isFatal : InEvent → Bool
  | .decodeFailure _ => true
  | .frame (.userMessage um) => um.sessionId.isNone
  | _ => false

end WcCodex

namespace WcCodex

theorem countTerminates_error (m : String) (c : Option String) :
    countTerminates [errorFrameMsg m c] = 0 := rfl

theorem countTerminates_status (m : String) :
    countTerminates [statusFrameMsg m] = 0 := rfl

theorem countTerminates_cons_status (m : String) (l : List ServerFrame) :
    countTerminates (statusFrameMsg m :: l) = countTerminates l := by
  simp [countTerminates, statusFrameMsg, List.filter_cons,
    ServerFrame.isTerminate]

theorem countTerminates_append (a b : List ServerFrame) :
    countTerminates (a ++ b) = countTerminates a + countTerminates b := by
  simp [countTerminates, List.filter_append]

theorem countTerminates_handleCancel (w : WrapperState) (q : QState)
    (sid uuid : String) :
    countTerminates (handleCancel w q sid uuid).1 = 0 := by
  by_cases h : w.runActive <;>
    simp [handleCancel, cancelCurrentRun, h, countTerminates,
      ServerFrame.isTerminate]

/-- A non-fatal event never ends the stream and never writes a terminate
frame (given the run effect writes none). -/
theorem stepHandler_nonfatal
    (runUM : UserMessageFrame → WrapperState → QState →
      List ServerFrame × WrapperState × QState)
    (hrun : ∀ um w q, countTerminates (runUM um w q).1 = 0)
    (s : HandlerState) (e : InEvent) (hend : s.ended = false)
    (hne : e.isFatal = false) :
    (stepHandler runUM s e).ended = false ∧
    countTerminates (stepHandler runUM s e).sent =
      countTerminates s.sent := by
  cases e with
  | heartbeatTick ts =>
    simp [stepHandler, hend, countTerminates_append, countTerminates,
      ServerFrame.isTerminate]
  | decodeFailure msg => simp [InEvent.isFatal] at hne
  | frame cf =>
    cases cf with
    | userMessage um =>
      cases hsid : um.sessionId with
      | none => simp [InEvent.isFatal, hsid] at hne
      | some sid =>
        by_cases hw : s.hasWrapper <;>
          simp [stepHandler, hend, hsid, hw, countTerminates_append, hrun,
            countTerminates_status, countTerminates_cons_status]
    | approve af =>
      by_cases hw : s.hasWrapper
      · by_cases hm : some af.sessionId ≠ s.currentSessionId
        · simp [stepHandler, hend, hw, hm, countTerminates_append,
            countTerminates, ServerFrame.isTerminate, errorFrameMsg]
        · simp [stepHandler, hend, hw, hm]
      · simp [stepHandler, hend, hw, countTerminates_append,
          countTerminates, ServerFrame.isTerminate, errorFrameMsg]
    | cancel cf =>
      by_cases hw : s.hasWrapper
      · by_cases hm : some cf.sessionId ≠ s.currentSessionId
        · simp [stepHandler, hend, hw, hm, countTerminates_append,
            countTerminates, ServerFrame.isTerminate, errorFrameMsg]
        · simp [stepHandler, hend, hw, hm, countTerminates_append,
            countTerminates_handleCancel]
      · simp [stepHandler, hend, hw, countTerminates_append,
          countTerminates, ServerFrame.isTerminate, errorFrameMsg]

/-- A fatal event ends the stream, writing an error frame but no
terminate frame. -/
theorem stepHandler_fatal
    (runUM : UserMessageFrame → WrapperState → QState →
      List ServerFrame × WrapperState × QState)
    (s : HandlerState) (e : InEvent) (hend : s.ended = false)
    (hf : e.isFatal = true) :
    (stepHandler runUM s e).ended = true ∧
    countTerminates (stepHandler runUM s e).sent =
      countTerminates s.sent := by
  cases e with
  | heartbeatTick ts => simp [InEvent.isFatal] at hf
  | decodeFailure msg =>
    simp [stepHandler, hend, countTerminates_append, countTerminates,
      ServerFrame.isTerminate, errorFrameMsg]
  | frame cf =>
    cases cf with
    | userMessage um =>
      cases hsid : um.sessionId with
      | some sid => simp [InEvent.isFatal, hsid] at hf
      | none =>
        simp [stepHandler, hend, hsid, countTerminates_append,
          countTerminates, ServerFrame.isTerminate, errorFrameMsg]
    | approve af => simp [InEvent.isFatal] at hf
    | cancel cf => simp [InEvent.isFatal] at hf

theorem runLoop_ended
    (runUM : UserMessageFrame → WrapperState → QState →
      List ServerFrame × WrapperState × QState) :
    ∀ (events : List InEvent) (s : HandlerState), s.ended = true →
      runLoop runUM s events = s := by
  intro events
  induction events with
  | nil => intro s _; rfl
  | cons e es ih =>
    intro s hend
    simp only [runLoop, stepHandler, hend, if_true]
    exact ih s hend

theorem runLoop_nonfatal
    (runUM : UserMessageFrame → WrapperState → QState →
      List ServerFrame × WrapperState × QState)
    (hrun : ∀ um w q, countTerminates (runUM um w q).1 = 0) :
    ∀ (events : List InEvent) (s : HandlerState), s.ended = false →
      (∀ e ∈ events, e.isFatal = false) →
      (runLoop runUM s events).ended = false ∧
      countTerminates (runLoop runUM s events).sent =
        countTerminates s.sent := by
  intro events
  induction events with
  | nil => intro s hend _; exact ⟨hend, rfl⟩
  | cons e es ih =>
    intro s hend hne
    obtain ⟨h1, h2⟩ := stepHandler_nonfatal runUM hrun s e hend
      (hne e (by simp))
    obtain ⟨h3, h4⟩ := ih (stepHandler runUM s e) h1
      (fun x hx => hne x (by simp [hx]))
    exact ⟨h3, by rw [runLoop, h4, h2]⟩

end WcCodex

namespace WcCodex

theorem runLoop_append
    (runUM : UserMessageFrame → WrapperState → QState →
      List ServerFrame × WrapperState × QState) :
    ∀ (a b : List InEvent) (s : HandlerState),
      runLoop runUM s (a ++ b) = runLoop runUM (runLoop runUM s a) b := by
  intro a
  induction a with
  | nil => intro b s; rfl
  | cons e es ih =>
    intro b s
    simp only [List.cons_append, runLoop]
    exact ih b (stepHandler runUM s e)

/-- C1 (counterexample): on the fatal missing-session-id lifecycle — the
first user_message carries no session id — the server ends the stream
after the SESSION_ID_REQUIRED error frame and never writes any terminate
frame, refuting the claim that every lifecycle observes exactly one
terminate frame as the last frame before close. -/
theorem terminate_missing_on_fatal :
    countTerminates (runHandler (fun _ w q => ([], w, q))
      [.frame (.userMessage ⟨none, none, "fix bug", none, none⟩)]).sent
      = 0 ∧
    (runHandler (fun _ w q => ([], w, q))
      [.frame (.userMessage ⟨none, none, "fix bug", none, none⟩)]).ended
      = true := by
  decide

/-- C1 (amended): on every lifecycle without a fatal early-close — normal
completion and client-initiated cancel, with any engine traffic that
itself writes no terminate — the server emits exactly one terminate frame
and it is the last frame written before the stream is closed; on the
fatal paths (transport decode error, missing session id on the first
user_message) the stream is closed with no terminate frame at all. -/
theorem terminate_exactly_once_amended
    (runUM : UserMessageFrame → WrapperState → QState →
      List ServerFrame × WrapperState × QState)
    (hrun : ∀ um w q, countTerminates (runUM um w q).1 = 0)
    (events : List InEvent) :
    ((∀ e ∈ events, e.isFatal = false) →
      countTerminates (runHandler runUM events).sent = 1 ∧
      (runHandler runUM events).sent.getLast? =
        some (terminateFrameMsg "Stream ended from server side.") ∧
      (runHandler runUM events).ended = true) ∧
    (∀ evs1 fe evs2, events = evs1 ++ fe :: evs2 →
      (∀ e ∈ evs1, e.isFatal = false) → fe.isFatal = true →
      countTerminates (runHandler runUM events).sent = 0 ∧
      (runHandler runUM events).ended = true) := by
  constructor
  · intro hne
    obtain ⟨h1, h2⟩ := runLoop_nonfatal runUM hrun events
      initialHandlerState rfl hne
    unfold runHandler finallyBlock
    rw [if_neg (by simp [h1])]
    refine ⟨?_, ?_, rfl⟩
    · simp only [countTerminates_append, h2]
      rfl
    · simp [terminateFrameMsg]
  · intro evs1 fe evs2 hev hne hf
    subst hev
    obtain ⟨h1, h2⟩ := runLoop_nonfatal runUM hrun evs1
      initialHandlerState rfl hne
    rw [runHandler, runLoop_append]
    have hmid := runLoop_append runUM evs1 (fe :: evs2) initialHandlerState
    simp only [runLoop]
    obtain ⟨h3, h4⟩ := stepHandler_fatal runUM
      (runLoop runUM initialHandlerState evs1) fe h1 hf
    rw [runLoop_ended runUM evs2 _ h3]
    unfold finallyBlock
    rw [if_pos (by simp [h3])]
    refine ⟨?_, h3⟩
    rw [h4, h2]
    rfl

/-- Witness for `terminate_exactly_once_amended`: a cancel lifecycle
(session bound, run cancelled, stream closed by the client) gets exactly
one trailing terminate; a lifecycle hitting the missing-session-id fatal
path gets none. -/
theorem terminate_exactly_once_amended_witness :
    (countTerminates (runHandler (fun _ w q => ([], w, q))
      [.frame (.userMessage ⟨none, some "s1", "fix bug", none, none⟩),
        .heartbeatTick "t1",
        .frame (.cancel ⟨none, "s1"⟩)]).sent = 1 ∧
      (runHandler (fun _ w q => ([], w, q))
        [.frame (.userMessage ⟨none, some "s1", "fix bug", none, none⟩),
          .heartbeatTick "t1",
          .frame (.cancel ⟨none, "s1"⟩)]).sent.getLast? =
        some (terminateFrameMsg "Stream ended from server side.") ∧
      (runHandler (fun _ w q => ([], w, q))
        [.frame (.userMessage ⟨none, some "s1", "fix bug", none, none⟩),
          .heartbeatTick "t1",
          .frame (.cancel ⟨none, "s1"⟩)]).ended = true) ∧
    (countTerminates (runHandler (fun _ w q => ([], w, q))
      [.heartbeatTick "t0",
        .frame (.userMessage ⟨none, none, "fix bug", none, none⟩),
        .frame (.cancel ⟨none, "s1"⟩)]).sent = 0 ∧
      (runHandler (fun _ w q => ([], w, q))
        [.heartbeatTick "t0",
          .frame (.userMessage ⟨none, none, "fix bug", none, none⟩),
          .frame (.cancel ⟨none, "s1"⟩)]).ended = true) :=
  ⟨(terminate_exactly_once_amended (fun _ w q => ([], w, q))
      (fun _ _ _ => rfl) _).1 (by decide),
    (terminate_exactly_once_amended (fun _ w q => ([], w, q))
      (fun _ _ _ => rfl) _).2 [.heartbeatTick "t0"]
      (.frame (.userMessage ⟨none, none, "fix bug", none, none⟩))
      [.frame (.cancel ⟨none, "s1"⟩)] rfl (by decide) (by decide)⟩

end WcCodex

namespace WcCodex

/-- C7: An approve or cancel frame whose sessionId differs from the
stream's bound session id only produces a SESSION_ID_MISMATCH error
frame: handleApprove/handleCancel are not reached, so neither the run
state nor the Confirmation Queue changes, the stream is not ended, and
the read loop continues with the subsequent frames exactly as if only the
error frame had been written. -/
theorem session_mismatch_is_isolated
    (runUM : UserMessageFrame → WrapperState → QState →
      List ServerFrame × WrapperState × QState)
    (s : HandlerState) (af : ApproveFrame) (cf : CancelFrame) (sid : String)
    (hend : s.ended = false) (hw : s.hasWrapper = true)
    (hbound : s.currentSessionId = some sid)
    (haf : af.sessionId ≠ sid) (hcf : cf.sessionId ≠ sid) :
    stepHandler runUM s (.frame (.approve af)) =
      { s with sent := s.sent ++ [errorFrameMsg
          "Session ID mismatch in approve frame."
          (some "SESSION_ID_MISMATCH")] } ∧
    stepHandler runUM s (.frame (.cancel cf)) =
      { s with sent := s.sent ++ [errorFrameMsg
          "Session ID mismatch in cancel frame."
          (some "SESSION_ID_MISMATCH")] } ∧
    (stepHandler runUM s (.frame (.approve af))).queue = s.queue ∧
    (stepHandler runUM s (.frame (.approve af))).wrapper = s.wrapper ∧
    (stepHandler runUM s (.frame (.approve af))).ended = false ∧
    (stepHandler runUM s (.frame (.cancel cf))).queue = s.queue ∧
    (stepHandler runUM s (.frame (.cancel cf))).wrapper = s.wrapper ∧
    (stepHandler runUM s (.frame (.cancel cf))).ended = false ∧
    (∀ rest, runLoop runUM s (.frame (.approve af) :: rest) =
      runLoop runUM
        { s with sent := s.sent ++ [errorFrameMsg
            "Session ID mismatch in approve frame."
            (some "SESSION_ID_MISMATCH")] } rest) := by
  have hma : (some af.sessionId ≠ s.currentSessionId) = True := by
    simp [hbound, haf]
  have hmc : (some cf.sessionId ≠ s.currentSessionId) = True := by
    simp [hbound, hcf]
  have ha : stepHandler runUM s (.frame (.approve af)) =
      { s with sent := s.sent ++ [errorFrameMsg
          "Session ID mismatch in approve frame."
          (some "SESSION_ID_MISMATCH")] } := by
    simp [stepHandler, hend, hw, hma]
  have hc : stepHandler runUM s (.frame (.cancel cf)) =
      { s with sent := s.sent ++ [errorFrameMsg
          "Session ID mismatch in cancel frame."
          (some "SESSION_ID_MISMATCH")] } := by
    simp [stepHandler, hend, hw, hmc]
  refine ⟨ha, hc, ?_, ?_, ?_, ?_, ?_, ?_, ?_⟩
  · rw [ha]
  · rw [ha]
  · rw [ha]; exact hend
  · rw [hc]
  · rw [hc]
  · rw [hc]; exact hend
  · intro rest
    rw [runLoop, ha]

/-- Witness for `session_mismatch_is_isolated`: bound session "s1",
approve and cancel frames for "s2". -/
theorem session_mismatch_is_isolated_witness :
    stepHandler (fun _ w q => ([], w, q))
      ⟨[], false, some "s1", true, ⟨false, false⟩, emptyQ, 0⟩
      (.frame (.approve ⟨none, "s2", "cmd-1", .allow, none⟩)) =
      { sent := [errorFrameMsg "Session ID mismatch in approve frame."
          (some "SESSION_ID_MISMATCH")],
        ended := false, currentSessionId := some "s1", hasWrapper := true,
        wrapper := ⟨false, false⟩, queue := emptyQ, uuidCounter := 0 } ∧
    (stepHandler (fun _ w q => ([], w, q))
      ⟨[], false, some "s1", true, ⟨false, false⟩, emptyQ, 0⟩
      (.frame (.cancel ⟨none, "s2"⟩))).queue = emptyQ := by
  have h := session_mismatch_is_isolated (fun _ w q => ([], w, q))
    ⟨[], false, some "s1", true, ⟨false, false⟩, emptyQ, 0⟩
    ⟨none, "s2", "cmd-1", .allow, none⟩ ⟨none, "s2"⟩ "s1" rfl rfl rfl
    (by decide) (by decide)
  exact ⟨h.1, h.2.2.2.2.2.1⟩

end WcCodex
